import Mathlib

/-!
Formal model of the event-verification core of the calendar-agent backend.

The model follows the TypeScript sources `event-verification.service.ts`
(class `EventVerificationService`) and `event-sources.service.ts`
(class `EventSourcesService`).  Conventions of the embedding:

* JavaScript numbers are modelled as exact rationals.
* Instants (`Date` values) are modelled as integer milliseconds since the
  epoch; `date.toISOString()` is rendered as the decimal value of the
  instant inside discrepancy messages.
* Network calls are modelled by oracle parameters: every provider fetch is
  an `Except` value (an `error` models a rejected promise), and the
  fallback search result consulted by `verifyEvent` is an oracle.
* The `string-similarity` package's `compareTwoStrings` (a Dice bigram
  coefficient) and `date-fns`'s `differenceInHours` (truncated difference)
  are modelled from their published sources.
* JavaScript truthiness of optional strings (absent or empty both count
  as falsy) is modelled explicitly.
-/

namespace CalendarAgent

/-- Whitespace characters matched by the JavaScript regular expression
class used in `compareTwoStrings` (restricted to the ASCII range). -/
def jsWhitespaceChar (c : Char) : Bool :=
  c = ' ' || c = '\t' || c = '\n' || c = '\r' || c = '\x0b' || c = '\x0c'

/-- Model of `str.replace(/\s+/g, ...)` removing every whitespace character. -/
def stripWhitespace (l : List Char) : List Char :=
  l.filter (fun c => !jsWhitespaceChar c)

/-- Consecutive character pairs of a string, as used by the bigram map in
`compareTwoStrings`. -/
def bigrams (l : List Char) : List (Char × Char) :=
  l.zip l.tail

/-- Multiset-intersection size of two bigram lists, written exactly as the
`intersectionSize` loop of `compareTwoStrings` accumulates it: walk the
second list, and when a bigram still has remaining multiplicity in the
first, consume one occurrence and count it. -/
def bigramIntersectionCount : List (Char × Char) → List (Char × Char) → ℕ
  | _, [] => 0
  | avail, bg :: rest =>
      if bg ∈ avail then 1 + bigramIntersectionCount (avail.erase bg) rest
      else bigramIntersectionCount avail rest

/-- Model of `compareTwoStrings` from the `string-similarity` package: strip
whitespace, return 1 on equal strings, 0 when either string is shorter than
two characters, and otherwise the Dice coefficient of the bigram multisets. -/
def compareTwoStrings (first second : List Char) : ℚ :=
  let f := stripWhitespace first
  let s := stripWhitespace second
  if f = s then 1
  else if f.length < 2 || s.length < 2 then 0
  else (2 * bigramIntersectionCount (bigrams f) (bigrams s) : ℚ) / ((f.length + s.length - 2 : ℕ) : ℚ)

/-- Lower-cased character list of a string, modelling `s.toLowerCase()` on
ASCII data. -/
def lowerData (s : String) : List Char :=
  s.data.map Char.toLower

/-- Model of `String.prototype.trim`: whitespace removed from both ends. -/
def trimChars (l : List Char) : List Char :=
  ((l.dropWhile jsWhitespaceChar).reverse.dropWhile jsWhitespaceChar).reverse

/-- JavaScript truthiness of a string: false exactly on the empty string. -/
def jsTruthyStr (s : String) : Bool :=
  !s.isEmpty

/-- JavaScript truthiness of an optional string field: an absent field and
an empty string are both falsy. -/
def jsTruthyOpt : Option String → Bool
  | none => false
  | some s => !s.isEmpty

/-- Value of an optional string, defaulting to the empty string. -/
def orEmpty : Option String → String
  | none => ""
  | some s => s

/-- Numeric value of a list of decimal digit characters. -/
def digitsToNat (l : List Char) : ℕ :=
  l.foldl (fun n c => 10 * n + (c.toNat - 48)) 0

/-- Model of `extractPrice`: the first match of the regular expression
`\d+(?:\.\d{1,2})?` in the price text, parsed as a number; `none` when the
text contains no digit. -/
def extractPrice (priceStr : String) : Option ℚ :=
  let l := priceStr.data.dropWhile (fun c => !c.isDigit)
  if l.isEmpty then none
  else
    let intPart := l.takeWhile Char.isDigit
    let rest := l.dropWhile Char.isDigit
    let fracPart : List Char :=
      match rest with
      | c :: cs => if c = '.' then (cs.takeWhile Char.isDigit).take 2 else []
      | [] => []
    some ((digitsToNat intPart : ℚ) + (digitsToNat fracPart : ℚ) / (10 ^ fracPart.length : ℚ))

/-- Model of `date-fns` `differenceInHours` composed with `Math.abs`: the
millisecond difference of two instants, truncated to whole hours. -/
def hoursBetween (a b : Int) : ℕ :=
  (a - b).natAbs / 3600000

/-- Candidate event produced upstream (`ParsedEvent` in
`ical-parser.service.ts`, with the `price` field of the deployed build).
Instants are epoch milliseconds. -/
structure ParsedEvent where
  uid : String
  summary : String
  description : Option String := none
  start : Int
  «end» : Int
  location : Option String := none
  price : Option String := none
  url : Option String := none
  organizer : Option String := none
  deriving Repr, DecidableEq

/-- Normalized provider record (`RealEvent` in `event-sources.service.ts`).
The `source` tag is one of the provider names. -/
structure RealEvent where
  id : String
  source : String
  name : String
  description : Option String := none
  startDateTime : Int
  endDateTime : Option Int := none
  location : Option String := none
  venue : Option String := none
  address : Option String := none
  url : Option String := none
  price : Option String := none
  imageUrl : Option String := none
  categories : Option (List String) := none
  organizer : Option String := none
  deriving Repr, DecidableEq

/-- Matched-source summary attached to a verified event. -/
structure MatchedSource where
  name : String
  url : Option String := none
  source : String
  deriving Repr, DecidableEq

/-- Output record of the verifier (`VerifiedEvent`), extending the candidate
with the verification fields. -/
structure VerifiedEvent extends ParsedEvent where
  confidence : Int
  verificationStatus : String
  matchedSource : Option MatchedSource := none
  discrepancies : Option (List String) := none
  deriving Repr, DecidableEq

/-- Aggregate statistics of one verification batch. -/
structure Stats where
  totalEvents : ℕ
  verifiedCount : ℕ
  partialCount : ℕ
  unverifiedCount : ℕ
  averageConfidence : Int
  deriving Repr, DecidableEq

/-- Result of `verifyEvents`: the ordered verified events plus statistics. -/
structure VerificationResult where
  verifiedEvents : List VerifiedEvent
  stats : Stats
  deriving Repr, DecidableEq

/-- Query shape handed to the source aggregator (`EventSourceOptions`).
The ISO date strings of the source are modelled as instants. -/
structure EventSourceOptions where
  location : String
  genre : Option String := none
  startDateTime : Option Int := none
  endDateTime : Option Int := none
  radius : Option ℚ := none
  deriving Repr, DecidableEq

/-- Outcome of the four provider network calls for one query; an `error`
models a rejected promise or a thrown transport error. -/
structure ProviderFetches where
  eventbrite : Except String (List RealEvent)
  ticketmaster : Except String (List RealEvent)
  meetup : Except String (List RealEvent)
  google : Except String (List RealEvent)

/-- Configured provider credentials; a provider is active exactly when its
credential string is truthy (non-empty). -/
structure ProviderConfig where
  eventbriteToken : String
  ticketmasterApiKey : String
  meetupApiKey : String
  googlePlacesApiKey : String
  deriving Repr, DecidableEq

/-- Model of the `.catch(err => [])` recovery attached to every provider
promise in `getAllEvents`. -/
def recoverToEmpty : Except String (List RealEvent) → List RealEvent
  | Except.ok events => events
  | Except.error _ => []

/-- Model of `EventSourcesService.getAllEvents`: one fetch per provider with
a configured credential, each failure recovered to an empty list, results
concatenated in provider-registration order. -/
def getAllEvents (cfg : ProviderConfig) (fetches : EventSourceOptions → ProviderFetches)
    (options : EventSourceOptions) : List RealEvent :=
  let results : List (List RealEvent) :=
    (if jsTruthyStr cfg.eventbriteToken then [recoverToEmpty (fetches options).eventbrite] else []) ++
    (if jsTruthyStr cfg.ticketmasterApiKey then [recoverToEmpty (fetches options).ticketmaster] else []) ++
    (if jsTruthyStr cfg.meetupApiKey then [recoverToEmpty (fetches options).meetup] else []) ++
    (if jsTruthyStr cfg.googlePlacesApiKey then [recoverToEmpty (fetches options).google] else [])
  results.flatten

/-- Model of JavaScript `haystack.includes(needle)`: `needle` occurs as a
contiguous substring of `haystack`. -/
def substringOf (needle haystack : List Char) : Bool :=
  haystack.tails.any (fun t => needle.isPrefixOf t)

/-- Name comparison used by `EventSourcesService.findEvent`: the search name
is lower-cased and trimmed, the event name lower-cased, and either may be a
substring of the other. -/
def findEventNameMatch (eventName : String) (ev : RealEvent) : Bool :=
  let normalizedSearchName := trimChars (lowerData eventName)
  substringOf normalizedSearchName (lowerData ev.name) ||
    substringOf (lowerData ev.name) normalizedSearchName

/-- Model of `EventSourcesService.findEvent`: query with the name as genre
keyword and a ±24-hour window around the date, then the first aggregated
event whose name matches. -/
def findEvent (cfg : ProviderConfig) (fetches : EventSourceOptions → ProviderFetches)
    (eventName : String) (location : String) (date : Option Int) : Option RealEvent :=
  let options : EventSourceOptions :=
    { location := location
      genre := some eventName
      startDateTime := date.map (fun d => d - 24 * 60 * 60 * 1000)
      endDateTime := date.map (fun d => d + 24 * 60 * 60 * 1000) }
  let events := getAllEvents cfg fetches options
  events.find? (fun ev => findEventNameMatch eventName ev)

/-- Shape of one Google Places nearby-search result consumed by
`getGoogleEvents`. -/
structure GooglePlace where
  place_id : String
  name : String
  vicinity : Option String := none
  types : Option (List String) := none
  deriving Repr, DecidableEq

/-- Model of `EventSourcesService.getGoogleEvents` on a successful response:
each returned place becomes a `RealEvent` whose start instant is the time of
the fetch (`new Date()`, the `now` parameter) and whose venue is the place
name; the description embeds the queried location. -/
def getGoogleEvents (now : Int) (options : EventSourceOptions)
    (places : List GooglePlace) : List RealEvent :=
  places.map (fun place =>
    let desc := "Event venue in " ++ options.location
    { id := "google-" ++ place.place_id
      source := "google"
      name := place.name
      description := some desc
      startDateTime := now
      location := place.vicinity
      venue := some place.name
      address := place.vicinity
      categories := some (place.types.getD []) })

/-- Model of `EventVerificationService.calculateMatchScore`: four weighted
components (name 0.4, time 0.3, location 0.2, price 0.1) pushed into the
scores array and summed. -/
def calculateMatchScore (parsedEvent : ParsedEvent) (realEvent : RealEvent) : ℚ :=
  let nameSimilarity := compareTwoStrings (lowerData parsedEvent.summary) (lowerData realEvent.name)
  let s1 := nameSimilarity * 0.4
  let timeDiff := hoursBetween parsedEvent.start realEvent.startDateTime
  let s2 := (if timeDiff ≤ 48 then 1 - (timeDiff : ℚ) / 48 else 0) * 0.3
  let s3 :=
    (if jsTruthyOpt parsedEvent.location && jsTruthyOpt realEvent.venue then
      compareTwoStrings (lowerData (orEmpty parsedEvent.location)) (lowerData (orEmpty realEvent.venue))
    else 0.5) * 0.2
  let s4 :=
    (if jsTruthyOpt parsedEvent.price && jsTruthyOpt realEvent.price then
      match extractPrice (orEmpty parsedEvent.price), extractPrice (orEmpty realEvent.price) with
      | some parsedPrice, some realPrice =>
          let priceDiff := |parsedPrice - realPrice|
          if priceDiff ≤ 10 then 1 - priceDiff / 100 else 0
      | _, _ => 0.5
    else 0.5) * 0.1
  s1 + s2 + s3 + s4

/-- Model of `EventVerificationService.findDiscrepancies`: four independent
checks on name, time, venue and price; zero to four messages. -/
def findDiscrepancies (parsedEvent : ParsedEvent) (realEvent : RealEvent) : List String :=
  let nameSimilarity := compareTwoStrings (lowerData parsedEvent.summary) (lowerData realEvent.name)
  let nameMsg := "Event name differs: \"" ++ parsedEvent.summary ++ "\" vs \"" ++ realEvent.name ++ "\""
  let d1 : List String := if nameSimilarity < 0.9 then [nameMsg] else []
  let timeDiff := hoursBetween parsedEvent.start realEvent.startDateTime
  let timeMsg := "Time differs by " ++ toString timeDiff ++ " hours: " ++
    toString parsedEvent.start ++ " vs " ++ toString realEvent.startDateTime
  let d2 : List String := if 2 < timeDiff then [timeMsg] else []
  let venueMsg := "Venue differs: \"" ++ orEmpty parsedEvent.location ++ "\" vs \"" ++
    orEmpty realEvent.venue ++ "\""
  let d3 : List String :=
    if jsTruthyOpt parsedEvent.location && jsTruthyOpt realEvent.venue then
      if compareTwoStrings (lowerData (orEmpty parsedEvent.location))
          (lowerData (orEmpty realEvent.venue)) < 0.8 then [venueMsg] else []
    else []
  let priceMsg := "Price differs: " ++ orEmpty parsedEvent.price ++ " vs " ++ orEmpty realEvent.price
  let d4 : List String :=
    if jsTruthyOpt parsedEvent.price && jsTruthyOpt realEvent.price then
      match extractPrice (orEmpty parsedEvent.price), extractPrice (orEmpty realEvent.price) with
      | some parsedPrice, some realPrice =>
          if 10 < |parsedPrice - realPrice| then [priceMsg] else []
      | _, _ => []
    else []
  d1 ++ d2 ++ d3 ++ d4

/-- Accumulating loop of `verifyEvent` over the real events: keep the
strictly best score seen so far together with the event attaining it. -/
def bestMatchAux (parsedEvent : ParsedEvent) :
    List RealEvent → Option RealEvent × ℚ → Option RealEvent × ℚ
  | [], acc => acc
  | realEvent :: rest, acc =>
      let score := calculateMatchScore parsedEvent realEvent
      bestMatchAux parsedEvent rest (if acc.2 < score then (some realEvent, score) else acc)

/-- Best-match search of `verifyEvent`: fold over the aggregated real-event
list starting from no match and score 0. -/
def bestMatch (parsedEvent : ParsedEvent) (realEvents : List RealEvent) : Option RealEvent × ℚ :=
  bestMatchAux parsedEvent realEvents (none, 0)

/-- Record of one `findEvent` fallback invocation issued by `verifyEvent`
(name, location and the candidate start passed as the date). -/
structure FallbackCall where
  name : String
  location : String
  date : Int
  deriving Repr, DecidableEq

/-- Status literal of a fully verified candidate. -/
def statusVerified : String := "verified"

/-- Status literal of a partially verified candidate. -/
def statusPartial : String := "partial"

/-- Status literal of an unverified candidate. -/
def statusUnverified : String := "unverified"

/-- Final assembly of a `VerifiedEvent` at the end of `verifyEvent`: spread
of the candidate, verification fields, empty discrepancy lists dropped, and
when a match exists the matched-source summary is attached and a missing
candidate URL is backfilled from the match. -/
def assembleVerifiedEvent (parsedEvent : ParsedEvent) (status : String) (confidence : Int)
    (discrepancies : List String) (bestMatched : Option RealEvent) : VerifiedEvent :=
  let v : VerifiedEvent :=
    { toParsedEvent := parsedEvent
      confidence := confidence
      verificationStatus := status
      matchedSource := none
      discrepancies := if discrepancies.isEmpty then none else some discrepancies }
  match bestMatched with
  | none => v
  | some m =>
      { v with
        matchedSource := some { name := m.name, url := m.url, source := m.source }
        url := if !jsTruthyOpt v.url && jsTruthyOpt m.url then m.url else v.url }

/-- Model of `EventVerificationService.verifyEvent`.  The `fallback`
parameter is the oracle value the `findEvent` network call would return;
the second component of the result records the fallback calls issued. -/
def verifyEvent (fallback : Option RealEvent) (parsedEvent : ParsedEvent)
    (realEvents : List RealEvent) (location : String) : VerifiedEvent × List FallbackCall :=
  let best := bestMatch parsedEvent realEvents
  if 0.8 ≤ best.2 then
    (assembleVerifiedEvent parsedEvent statusVerified (round (best.2 * 100)) [] best.1, [])
  else if 0.5 ≤ best.2 then
    let discrepancies :=
      match best.1 with
      | some m => findDiscrepancies parsedEvent m
      | none => []
    (assembleVerifiedEvent parsedEvent statusPartial (round (best.2 * 100)) discrepancies best.1, [])
  else
    let call : FallbackCall := ⟨parsedEvent.summary, location, parsedEvent.start⟩
    match fallback with
    | some directMatch =>
        let score := calculateMatchScore parsedEvent directMatch
        if 0.5 ≤ score then
          (assembleVerifiedEvent parsedEvent statusPartial (round (score * 100))
            (findDiscrepancies parsedEvent directMatch) (some directMatch), [call])
        else
          (assembleVerifiedEvent parsedEvent statusUnverified (round (score * 100)) []
            (some directMatch), [call])
    | none =>
        (assembleVerifiedEvent parsedEvent statusUnverified (round (best.2 * 100)) [] best.1, [call])

/-- Model of `EventVerificationService.calculateStats`: counts per status
and the rounded arithmetic mean of the confidences (0 for an empty batch). -/
def calculateStats (verifiedEvents : List VerifiedEvent) : Stats :=
  let totalEvents := verifiedEvents.length
  let verifiedCount := (verifiedEvents.filter (fun e => e.verificationStatus == statusVerified)).length
  let partialCount := (verifiedEvents.filter (fun e => e.verificationStatus == statusPartial)).length
  let unverifiedCount := (verifiedEvents.filter (fun e => e.verificationStatus == statusUnverified)).length
  let averageConfidence : ℚ :=
    if 0 < totalEvents then
      ((verifiedEvents.map (fun e => e.confidence)).sum : ℚ) / (totalEvents : ℚ)
    else 0
  { totalEvents := totalEvents
    verifiedCount := verifiedCount
    partialCount := partialCount
    unverifiedCount := unverifiedCount
    averageConfidence := round averageConfidence }

/-- Model of `EventVerificationService.verifyEvents`: one shared aggregated
fetch, then each candidate verified against it (the per-candidate fallback
oracle is the `findEvent` result for that candidate), then statistics. -/
def verifyEvents (cfg : ProviderConfig) (fetches : EventSourceOptions → ProviderFetches)
    (parsedEvents : List ParsedEvent) (location : String) (genre : Option String)
    (startDateTime endDateTime : Option Int) : VerificationResult :=
  let realEvents := getAllEvents cfg fetches
    { location := location, genre := genre
      startDateTime := startDateTime, endDateTime := endDateTime }
  let verifiedEvents := parsedEvents.map (fun e =>
    (verifyEvent (findEvent cfg fetches e.summary location (some e.start)) e realEvents location).1)
  { verifiedEvents := verifiedEvents, stats := calculateStats verifiedEvents }

/-- Score the verifier ends up using for a candidate: the best-match score,
re-computed against the fallback result when the best score was below 0.5
and the fallback produced an event. -/
def finalScore (fallback : Option RealEvent) (parsedEvent : ParsedEvent)
    (realEvents : List RealEvent) : ℚ :=
  let best := bestMatch parsedEvent realEvents
  if best.2 < 0.5 then
    match fallback with
    | some directMatch => calculateMatchScore parsedEvent directMatch
    | none => best.2
  else best.2

/-- Real event the verifier ends up holding for a candidate at assembly
time: the fallback result replaces the best match when the best score was
below 0.5 and the fallback produced an event. -/
def finalMatch (fallback : Option RealEvent) (parsedEvent : ParsedEvent)
    (realEvents : List RealEvent) : Option RealEvent :=
  let best := bestMatch parsedEvent realEvents
  if best.2 < 0.5 then
    match fallback with
    | some directMatch => some directMatch
    | none => best.1
  else best.1

/-- Unweighted name sub-score of `calculateMatchScore`. -/
def nameScore (parsedEvent : ParsedEvent) (realEvent : RealEvent) : ℚ :=
  compareTwoStrings (lowerData parsedEvent.summary) (lowerData realEvent.name)

/-- Unweighted time sub-score of `calculateMatchScore`. -/
def timeScore (parsedEvent : ParsedEvent) (realEvent : RealEvent) : ℚ :=
  let timeDiff := hoursBetween parsedEvent.start realEvent.startDateTime
  if timeDiff ≤ 48 then 1 - (timeDiff : ℚ) / 48 else 0

/-- Unweighted location sub-score of `calculateMatchScore`. -/
def locationScore (parsedEvent : ParsedEvent) (realEvent : RealEvent) : ℚ :=
  if jsTruthyOpt parsedEvent.location && jsTruthyOpt realEvent.venue then
    compareTwoStrings (lowerData (orEmpty parsedEvent.location)) (lowerData (orEmpty realEvent.venue))
  else 0.5

/-- Unweighted price sub-score of `calculateMatchScore`. -/
def priceScore (parsedEvent : ParsedEvent) (realEvent : RealEvent) : ℚ :=
  if jsTruthyOpt parsedEvent.price && jsTruthyOpt realEvent.price then
    match extractPrice (orEmpty parsedEvent.price), extractPrice (orEmpty realEvent.price) with
    | some parsedPrice, some realPrice =>
        if |parsedPrice - realPrice| ≤ 10 then 1 - |parsedPrice - realPrice| / 100 else 0
    | _, _ => 0.5
  else 0.5

/-- Modelled from the spec: the name test the specification describes for
`findEvent` — a case-insensitive substring match, in either direction,
between the event name and the search name (no trimming of the search
name is mentioned). -/
def specNameMatch (searchName : String) (ev : RealEvent) : Bool :=
  substringOf (lowerData searchName) (lowerData ev.name) ||
    substringOf (lowerData ev.name) (lowerData searchName)

/-! Concrete fixtures used by witnesses and counterexamples.  String
constants are introduced for values passed as arguments. -/

def sBlueNote : String := "Blue Note"
def sPrice20 : String := "$20"
def sNYC : String := "NYC"
def sAB : String := "ab"
def sCD : String := "cd"
def sPrice1 : String := "$1"
def sPrice50 : String := "$50"
def sPadAB : String := " ab "
def sBoom : String := "boom"

/-- Candidate that matches `jazzReal` perfectly (score 1). -/
def jazzCandidate : ParsedEvent :=
  { uid := "u1", summary := "Jazz Night", start := 1750000000000, «end» := 1750010800000,
    location := some sBlueNote, price := some sPrice20 }

/-- Real event identical to `jazzCandidate` in every scored attribute. -/
def jazzReal : RealEvent :=
  { id := "r1", source := "ticketmaster", name := "Jazz Night",
    startDateTime := 1750000000000, venue := some sBlueNote, price := some sPrice20 }

/-- Candidate whose match score against `zeroReal` is exactly 0. -/
def zeroCandidate : ParsedEvent :=
  { uid := "u2", summary := "ab", start := 0, «end» := 3600000,
    location := some sAB, price := some sPrice1 }

/-- Real event scoring 0 against `zeroCandidate`: disjoint bigrams, start
49 hours away, disjoint venue, price difference above 10. -/
def zeroReal : RealEvent :=
  { id := "r2", source := "eventbrite", name := "cd",
    startDateTime := 176400000, venue := some sCD, price := some sPrice50 }

/-- Real event whose name strictly contains the trimmed search name
`sPadAB` but neither contains nor is contained in the padded original. -/
def xabyReal : RealEvent :=
  { id := "r3", source := "eventbrite", name := "xaby", startDateTime := 0 }

/-- Configuration with only the Eventbrite credential present. -/
def ebOnlyConfig : ProviderConfig :=
  { eventbriteToken := "T", ticketmasterApiKey := "", meetupApiKey := "", googlePlacesApiKey := "" }

/-- Configuration with no provider credentials. -/
def emptyConfig : ProviderConfig :=
  { eventbriteToken := "", ticketmasterApiKey := "", meetupApiKey := "", googlePlacesApiKey := "" }

/-- Oracle under which the single active provider returns `xabyReal`. -/
def xabyFetches : EventSourceOptions → ProviderFetches := fun _ =>
  { eventbrite := Except.ok [xabyReal], ticketmaster := Except.ok [],
    meetup := Except.ok [], google := Except.ok [] }

/-- Oracle under which every provider call fails. -/
def failingFetches : EventSourceOptions → ProviderFetches := fun _ =>
  { eventbrite := Except.error sBoom, ticketmaster := Except.error sBoom,
    meetup := Except.error sBoom, google := Except.error sBoom }

/-- One Google Places nearby-search result. -/
def theHallPlace : GooglePlace :=
  { place_id := "p1", name := "The Hall", vicinity := some sNYC }

def sTheHall : String := "The Hall"
def sVenueNYC : String := "Event venue in NYC"

/-- The `RealEvent` that `getGoogleEvents` builds from `theHallPlace` when
invoked at instant 0 for the `nycOptions` query. -/
def googleHallEvent : RealEvent :=
  { id := "google-p1", source := "google", name := sTheHall, description := some sVenueNYC,
    startDateTime := 0, location := some sNYC, venue := some sTheHall, address := some sNYC,
    categories := some [] }

/-- Query for events in `sNYC` with no further filters. -/
def nycOptions : EventSourceOptions :=
  { location := sNYC }

/-- Provider outcomes with every rejection replaced by a successful empty
result; used to state that failures contribute empty lists. -/
def normalizeFetches (f : ProviderFetches) : ProviderFetches :=
  { eventbrite := Except.ok (recoverToEmpty f.eventbrite)
    ticketmaster := Except.ok (recoverToEmpty f.ticketmaster)
    meetup := Except.ok (recoverToEmpty f.meetup)
    google := Except.ok (recoverToEmpty f.google) }

/-- Aggregated real-event list fetched once for a whole verification batch
by `verifyEvents`. -/
def batchRealEvents (cfg : ProviderConfig) (fetches : EventSourceOptions → ProviderFetches)
    (location : String) (genre : Option String) (startDateTime endDateTime : Option Int) :
    List RealEvent :=
  getAllEvents cfg fetches
    { location := location, genre := genre
      startDateTime := startDateTime, endDateTime := endDateTime }

/-- Fallback oracle used by `verifyEvents` for one candidate: the
`findEvent` result for the candidate title, the batch location and the
candidate start. -/
def batchFallback (cfg : ProviderConfig) (fetches : EventSourceOptions → ProviderFetches)
    (location : String) (e : ParsedEvent) : Option RealEvent :=
  findEvent cfg fetches e.summary location (some e.start)

/-! Bounds for the string-similarity ratio. -/

theorem bigramIntersectionCount_le_right (avail l : List (Char × Char)) :
    bigramIntersectionCount avail l ≤ l.length := by
  induction l generalizing avail with
  | nil => simp [bigramIntersectionCount]
  | cons bg rest ih =>
    simp only [bigramIntersectionCount, List.length_cons]
    split
    · have := ih (avail.erase bg)
      omega
    · have := ih avail
      omega

theorem bigramIntersectionCount_le_left (avail l : List (Char × Char)) :
    bigramIntersectionCount avail l ≤ avail.length := by
  induction l generalizing avail with
  | nil => simp [bigramIntersectionCount]
  | cons bg rest ih =>
    simp only [bigramIntersectionCount]
    split
    · rename_i hmem
      have h1 := ih (avail.erase bg)
      have h2 : (avail.erase bg).length = avail.length - 1 := List.length_erase_of_mem hmem
      have h3 : 0 < avail.length := List.length_pos.2 (List.ne_nil_of_mem hmem)
      omega
    · exact ih avail

theorem bigrams_length (l : List Char) : (bigrams l).length = l.length - 1 := by
  rw [bigrams, List.length_zip, List.length_tail]
  exact Nat.min_eq_right (Nat.sub_le _ _)

theorem compareTwoStrings_nonneg (a b : List Char) : 0 ≤ compareTwoStrings a b := by
  simp only [compareTwoStrings]
  split_ifs
  · norm_num
  · norm_num
  · positivity

theorem compareTwoStrings_le_one (a b : List Char) : compareTwoStrings a b ≤ 1 := by
  simp only [compareTwoStrings]
  split_ifs with h1 h2
  · norm_num
  · norm_num
  · have hlen : ¬(stripWhitespace a).length < 2 ∧ ¬(stripWhitespace b).length < 2 := by
      simpa using h2
    have hI1 : bigramIntersectionCount (bigrams (stripWhitespace a)) (bigrams (stripWhitespace b)) ≤
        (stripWhitespace a).length - 1 := by
      have := bigramIntersectionCount_le_left (bigrams (stripWhitespace a)) (bigrams (stripWhitespace b))
      rwa [bigrams_length] at this
    have hI2 : bigramIntersectionCount (bigrams (stripWhitespace a)) (bigrams (stripWhitespace b)) ≤
        (stripWhitespace b).length - 1 := by
      have := bigramIntersectionCount_le_right (bigrams (stripWhitespace a)) (bigrams (stripWhitespace b))
      rwa [bigrams_length] at this
    obtain ⟨ha2, hb2⟩ := hlen
    have hpos : (0:ℚ) < (((stripWhitespace a).length + (stripWhitespace b).length - 2 : ℕ) : ℚ) := by
      have hn : 0 < (stripWhitespace a).length + (stripWhitespace b).length - 2 := by omega
      exact_mod_cast hn
    rw [div_le_one hpos]
    have key : 2 * bigramIntersectionCount (bigrams (stripWhitespace a)) (bigrams (stripWhitespace b)) ≤
        (stripWhitespace a).length + (stripWhitespace b).length - 2 := by omega
    exact_mod_cast key

theorem compareTwoStrings_self (a : List Char) : compareTwoStrings a a = 1 := by
  simp [compareTwoStrings]

/-! Bounds for the four sub-scores and the total match score. -/

theorem nameScore_nonneg (e : ParsedEvent) (r : RealEvent) : 0 ≤ nameScore e r :=
  compareTwoStrings_nonneg _ _

theorem nameScore_le_one (e : ParsedEvent) (r : RealEvent) : nameScore e r ≤ 1 :=
  compareTwoStrings_le_one _ _

theorem timeScore_nonneg (e : ParsedEvent) (r : RealEvent) : 0 ≤ timeScore e r := by
  simp only [timeScore]
  split_ifs with h
  · have : ((hoursBetween e.start r.startDateTime : ℚ)) ≤ 48 := by exact_mod_cast h
    linarith
  · norm_num

theorem timeScore_le_one (e : ParsedEvent) (r : RealEvent) : timeScore e r ≤ 1 := by
  simp only [timeScore]
  split_ifs with h
  · have : (0:ℚ) ≤ (hoursBetween e.start r.startDateTime : ℚ) := by positivity
    linarith
  · norm_num

theorem locationScore_nonneg (e : ParsedEvent) (r : RealEvent) : 0 ≤ locationScore e r := by
  simp only [locationScore]
  split_ifs
  · exact compareTwoStrings_nonneg _ _
  · norm_num

theorem locationScore_le_one (e : ParsedEvent) (r : RealEvent) : locationScore e r ≤ 1 := by
  simp only [locationScore]
  split_ifs
  · exact compareTwoStrings_le_one _ _
  · norm_num

theorem priceScore_nonneg (e : ParsedEvent) (r : RealEvent) : 0 ≤ priceScore e r := by
  simp only [priceScore]
  split_ifs
  · split
    · split_ifs with h
      · rename_i pp rp _ _
        have : |pp - rp| ≤ 10 := h
        have habs : (0:ℚ) ≤ |pp - rp| := abs_nonneg _
        linarith
      · norm_num
    · norm_num
  · norm_num

theorem priceScore_le_one (e : ParsedEvent) (r : RealEvent) : priceScore e r ≤ 1 := by
  simp only [priceScore]
  split_ifs
  · split
    · split_ifs with h
      · rename_i pp rp _ _
        have habs : (0:ℚ) ≤ |pp - rp| := abs_nonneg _
        linarith
      · norm_num
    · norm_num
  · norm_num

theorem calculateMatchScore_eq (e : ParsedEvent) (r : RealEvent) :
    calculateMatchScore e r =
      nameScore e r * 0.4 + timeScore e r * 0.3 + locationScore e r * 0.2 + priceScore e r * 0.1 :=
  rfl

theorem calculateMatchScore_nonneg (e : ParsedEvent) (r : RealEvent) :
    0 ≤ calculateMatchScore e r := by
  rw [calculateMatchScore_eq]
  have h1 := nameScore_nonneg e r
  have h2 := timeScore_nonneg e r
  have h3 := locationScore_nonneg e r
  have h4 := priceScore_nonneg e r
  nlinarith

theorem calculateMatchScore_le_one (e : ParsedEvent) (r : RealEvent) :
    calculateMatchScore e r ≤ 1 := by
  rw [calculateMatchScore_eq]
  have h1 := nameScore_le_one e r
  have h2 := timeScore_le_one e r
  have h3 := locationScore_le_one e r
  have h4 := priceScore_le_one e r
  nlinarith

/-! Rounding of confidences. -/

theorem confidence_round_bounds (q : ℚ) (h0 : 0 ≤ q) (h1 : q ≤ 1) :
    0 ≤ round (q * 100) ∧ round (q * 100) ≤ 100 := by
  constructor
  · rw [round_eq]
    exact Int.le_floor.mpr (by push_cast; linarith)
  · rw [round_eq]
    have h2 : ⌊(201:ℚ)/2⌋ = 100 := by norm_num [Int.floor_eq_iff]
    calc ⌊q * 100 + 1/2⌋ ≤ ⌊(201:ℚ)/2⌋ := Int.floor_le_floor (by linarith)
    _ = 100 := h2

/-! Characterization of the best-match loop. -/

theorem bestMatchAux_snd_eq (e : ParsedEvent) (l : List RealEvent) :
    ∀ acc : Option RealEvent × ℚ,
      (bestMatchAux e l acc).2 = l.foldl (fun m r => max m (calculateMatchScore e r)) acc.2 := by
  induction l with
  | nil => intro acc; rfl
  | cons r rest ih =>
    intro acc
    simp only [bestMatchAux, List.foldl]
    rw [ih]
    congr 1
    by_cases h : acc.2 < calculateMatchScore e r
    · rw [if_pos h]
      exact (max_eq_right (le_of_lt h)).symm
    · rw [if_neg h]
      exact (max_eq_left (le_of_not_lt h)).symm

theorem le_bestFold (e : ParsedEvent) (l : List RealEvent) :
    ∀ b : ℚ, b ≤ l.foldl (fun m r => max m (calculateMatchScore e r)) b := by
  induction l with
  | nil => intro b; exact le_refl b
  | cons r rest ih =>
    intro b
    exact le_trans (le_max_left b (calculateMatchScore e r)) (ih _)

theorem mem_le_bestFold (e : ParsedEvent) (l : List RealEvent) :
    ∀ (b : ℚ) (r : RealEvent), r ∈ l →
      calculateMatchScore e r ≤ l.foldl (fun m x => max m (calculateMatchScore e x)) b := by
  induction l with
  | nil => intro _ _ h; cases h
  | cons a rest ih =>
    intro b r h
    rcases List.mem_cons.1 h with heq | hmem
    · subst heq
      exact le_trans (le_max_right b (calculateMatchScore e r)) (le_bestFold e rest _)
    · exact ih _ r hmem

theorem bestFold_le_one (e : ParsedEvent) (l : List RealEvent) :
    ∀ b : ℚ, b ≤ 1 → l.foldl (fun m r => max m (calculateMatchScore e r)) b ≤ 1 := by
  induction l with
  | nil => intro b hb; exact hb
  | cons r rest ih =>
    intro b hb
    exact ih _ (max_le hb (calculateMatchScore_le_one e r))

theorem bestMatch_snd_eq (e : ParsedEvent) (l : List RealEvent) :
    (bestMatch e l).2 = l.foldl (fun m r => max m (calculateMatchScore e r)) 0 :=
  bestMatchAux_snd_eq e l (none, 0)

theorem bestMatch_snd_nonneg (e : ParsedEvent) (l : List RealEvent) : 0 ≤ (bestMatch e l).2 := by
  rw [bestMatch_snd_eq]
  exact le_bestFold e l 0

theorem bestMatch_snd_le_one (e : ParsedEvent) (l : List RealEvent) : (bestMatch e l).2 ≤ 1 := by
  rw [bestMatch_snd_eq]
  exact bestFold_le_one e l 0 (by norm_num)

theorem bestMatch_mem_le (e : ParsedEvent) (l : List RealEvent) (r : RealEvent) (h : r ∈ l) :
    calculateMatchScore e r ≤ (bestMatch e l).2 := by
  rw [bestMatch_snd_eq]
  exact mem_le_bestFold e l 0 r h

theorem bestMatchAux_cases (e : ParsedEvent) (l : List RealEvent) :
    ∀ (m : Option RealEvent) (b : ℚ),
      bestMatchAux e l (m, b) = (m, b) ∨
        ∃ x pre post, l = pre ++ x :: post ∧
          (bestMatchAux e l (m, b)).1 = some x ∧
          (bestMatchAux e l (m, b)).2 = calculateMatchScore e x ∧
          b < calculateMatchScore e x ∧
          ∀ y ∈ pre, calculateMatchScore e y < calculateMatchScore e x := by
  induction l with
  | nil => intro m b; exact Or.inl rfl
  | cons r rest ih =>
    intro m b
    by_cases h : b < calculateMatchScore e r
    · have hstep : bestMatchAux e (r :: rest) (m, b) =
          bestMatchAux e rest (some r, calculateMatchScore e r) := by
        simp only [bestMatchAux]
        rw [if_pos h]
      rcases ih (some r) (calculateMatchScore e r) with heq | ⟨x, pre, post, hl, h1, h2, h3, h4⟩
      · refine Or.inr ⟨r, [], rest, by simp, ?_, ?_, h, by simp⟩
        · rw [hstep, heq]
        · rw [hstep, heq]
      · refine Or.inr ⟨x, r :: pre, post, by rw [hl]; rfl, ?_, ?_, lt_trans h h3, ?_⟩
        · rw [hstep]; exact h1
        · rw [hstep]; exact h2
        · intro y hy
          rcases List.mem_cons.1 hy with hy1 | hy2
          · subst hy1; exact h3
          · exact h4 y hy2
    · have hstep : bestMatchAux e (r :: rest) (m, b) = bestMatchAux e rest (m, b) := by
        simp only [bestMatchAux]
        rw [if_neg h]
      rcases ih m b with heq | ⟨x, pre, post, hl, h1, h2, h3, h4⟩
      · exact Or.inl (by rw [hstep, heq])
      · refine Or.inr ⟨x, r :: pre, post, by rw [hl]; rfl, ?_, ?_, h3, ?_⟩
        · rw [hstep]; exact h1
        · rw [hstep]; exact h2
        · intro y hy
          rcases List.mem_cons.1 hy with hy1 | hy2
          · subst hy1; exact lt_of_le_of_lt (le_of_not_lt h) h3
          · exact h4 y hy2

theorem bestMatch_none_iff (e : ParsedEvent) (l : List RealEvent) :
    (bestMatch e l).1 = none ↔ ∀ r ∈ l, calculateMatchScore e r ≤ 0 := by
  constructor
  · intro hnone r hr
    rcases bestMatchAux_cases e l none 0 with heq | ⟨x, pre, post, hl, h1, h2, h3, h4⟩
    · have hsnd : (bestMatch e l).2 = 0 := by
        show (bestMatchAux e l (none, 0)).2 = 0
        rw [heq]
      have := bestMatch_mem_le e l r hr
      linarith [this, hsnd.le, hsnd.ge]
    · exact absurd (hnone ▸ h1) (by simp)
  · intro hall
    rcases bestMatchAux_cases e l none 0 with heq | ⟨x, pre, post, hl, h1, h2, h3, h4⟩
    · show (bestMatchAux e l (none, 0)).1 = none
      rw [heq]
    · have hx : x ∈ l := by
        rw [hl]
        exact List.mem_append.2 (Or.inr (List.mem_cons_self x post))
      exact absurd (hall x hx) (not_le.2 h3)

theorem bestMatch_some_spec (e : ParsedEvent) (l : List RealEvent) (x : RealEvent)
    (h : (bestMatch e l).1 = some x) :
    0 < calculateMatchScore e x ∧ calculateMatchScore e x = (bestMatch e l).2 ∧
      (∀ y ∈ l, calculateMatchScore e y ≤ calculateMatchScore e x) ∧
      ∃ pre post, l = pre ++ x :: post ∧
        ∀ y ∈ pre, calculateMatchScore e y < calculateMatchScore e x := by
  rcases bestMatchAux_cases e l none 0 with heq | ⟨x', pre, post, hl, h1, h2, h3, h4⟩
  · have : (bestMatch e l).1 = none := by
      show (bestMatchAux e l (none, 0)).1 = none
      rw [heq]
    rw [this] at h
    cases h
  · have hx : x' = x := by
      have := h1.symm.trans h
      exact Option.some.inj this
    subst hx
    refine ⟨h3, h2.symm, ?_, pre, post, hl, h4⟩
    intro y hy
    have := bestMatch_mem_le e l y hy
    rw [← h2]
    exact this

/-! Field laws of the final assembly step. -/

theorem assemble_confidence (e : ParsedEvent) (st : String) (c : Int) (d : List String)
    (m : Option RealEvent) : (assembleVerifiedEvent e st c d m).confidence = c := by
  cases m <;> rfl

theorem assemble_status (e : ParsedEvent) (st : String) (c : Int) (d : List String)
    (m : Option RealEvent) : (assembleVerifiedEvent e st c d m).verificationStatus = st := by
  cases m <;> rfl

theorem assemble_discrepancies (e : ParsedEvent) (st : String) (c : Int) (d : List String)
    (m : Option RealEvent) :
    (assembleVerifiedEvent e st c d m).discrepancies = if d.isEmpty then none else some d := by
  cases m <;> rfl

theorem assemble_matchedSource (e : ParsedEvent) (st : String) (c : Int) (d : List String)
    (m : Option RealEvent) :
    (assembleVerifiedEvent e st c d m).matchedSource =
      m.map (fun mm => { name := mm.name, url := mm.url, source := mm.source }) := by
  cases m <;> rfl

theorem assemble_url (e : ParsedEvent) (st : String) (c : Int) (d : List String)
    (m : Option RealEvent) :
    (assembleVerifiedEvent e st c d m).url =
      match m with
      | none => e.url
      | some mm => if !jsTruthyOpt e.url && jsTruthyOpt mm.url then mm.url else e.url := by
  cases m <;> rfl

theorem assemble_uid (e : ParsedEvent) (st : String) (c : Int) (d : List String)
    (m : Option RealEvent) : (assembleVerifiedEvent e st c d m).uid = e.uid := by
  cases m <;> rfl

theorem assemble_summary (e : ParsedEvent) (st : String) (c : Int) (d : List String)
    (m : Option RealEvent) : (assembleVerifiedEvent e st c d m).summary = e.summary := by
  cases m <;> rfl

theorem assemble_description (e : ParsedEvent) (st : String) (c : Int) (d : List String)
    (m : Option RealEvent) : (assembleVerifiedEvent e st c d m).description = e.description := by
  cases m <;> rfl

theorem assemble_start (e : ParsedEvent) (st : String) (c : Int) (d : List String)
    (m : Option RealEvent) : (assembleVerifiedEvent e st c d m).start = e.start := by
  cases m <;> rfl

theorem assemble_end (e : ParsedEvent) (st : String) (c : Int) (d : List String)
    (m : Option RealEvent) : (assembleVerifiedEvent e st c d m).«end» = e.«end» := by
  cases m <;> rfl

theorem assemble_location (e : ParsedEvent) (st : String) (c : Int) (d : List String)
    (m : Option RealEvent) : (assembleVerifiedEvent e st c d m).location = e.location := by
  cases m <;> rfl

theorem assemble_price (e : ParsedEvent) (st : String) (c : Int) (d : List String)
    (m : Option RealEvent) : (assembleVerifiedEvent e st c d m).price = e.price := by
  cases m <;> rfl

theorem assemble_organizer (e : ParsedEvent) (st : String) (c : Int) (d : List String)
    (m : Option RealEvent) : (assembleVerifiedEvent e st c d m).organizer = e.organizer := by
  cases m <;> rfl

/-! Branch laws of `verifyEvent`. -/

theorem verifyEvent_of_high (fb : Option RealEvent) (e : ParsedEvent) (reals : List RealEvent)
    (loc : String) (h : 0.8 ≤ (bestMatch e reals).2) :
    verifyEvent fb e reals loc =
      (assembleVerifiedEvent e statusVerified (round ((bestMatch e reals).2 * 100)) []
        (bestMatch e reals).1, []) := by
  simp only [verifyEvent]
  rw [if_pos h]

theorem verifyEvent_of_mid (fb : Option RealEvent) (e : ParsedEvent) (reals : List RealEvent)
    (loc : String) (h8 : ¬0.8 ≤ (bestMatch e reals).2) (h5 : 0.5 ≤ (bestMatch e reals).2) :
    verifyEvent fb e reals loc =
      (assembleVerifiedEvent e statusPartial (round ((bestMatch e reals).2 * 100))
        (match (bestMatch e reals).1 with
         | some m => findDiscrepancies e m
         | none => []) (bestMatch e reals).1, []) := by
  simp only [verifyEvent]
  rw [if_neg h8, if_pos h5]

theorem verifyEvent_of_low_none (e : ParsedEvent) (reals : List RealEvent) (loc : String)
    (h : (bestMatch e reals).2 < 0.5) :
    verifyEvent none e reals loc =
      (assembleVerifiedEvent e statusUnverified (round ((bestMatch e reals).2 * 100)) []
        (bestMatch e reals).1, [⟨e.summary, loc, e.start⟩]) := by
  simp only [verifyEvent]
  rw [if_neg (by linarith : ¬(0.8:ℚ) ≤ (bestMatch e reals).2),
    if_neg (by linarith : ¬(0.5:ℚ) ≤ (bestMatch e reals).2)]

theorem verifyEvent_of_low_some_good (e : ParsedEvent) (reals : List RealEvent) (loc : String)
    (r : RealEvent) (h : (bestMatch e reals).2 < 0.5) (hs : 0.5 ≤ calculateMatchScore e r) :
    verifyEvent (some r) e reals loc =
      (assembleVerifiedEvent e statusPartial (round (calculateMatchScore e r * 100))
        (findDiscrepancies e r) (some r), [⟨e.summary, loc, e.start⟩]) := by
  simp only [verifyEvent]
  rw [if_neg (by linarith : ¬(0.8:ℚ) ≤ (bestMatch e reals).2),
    if_neg (by linarith : ¬(0.5:ℚ) ≤ (bestMatch e reals).2)]
  simp only [if_pos hs]

theorem verifyEvent_of_low_some_bad (e : ParsedEvent) (reals : List RealEvent) (loc : String)
    (r : RealEvent) (h : (bestMatch e reals).2 < 0.5) (hs : calculateMatchScore e r < 0.5) :
    verifyEvent (some r) e reals loc =
      (assembleVerifiedEvent e statusUnverified (round (calculateMatchScore e r * 100)) []
        (some r), [⟨e.summary, loc, e.start⟩]) := by
  simp only [verifyEvent]
  rw [if_neg (by linarith : ¬(0.8:ℚ) ≤ (bestMatch e reals).2),
    if_neg (by linarith : ¬(0.5:ℚ) ≤ (bestMatch e reals).2)]
  simp only [if_neg (by linarith : ¬(0.5:ℚ) ≤ calculateMatchScore e r)]

/-! Laws of the derived final-score and final-match views. -/

theorem finalScore_of_not_low (fb : Option RealEvent) (e : ParsedEvent) (reals : List RealEvent)
    (h : ¬(bestMatch e reals).2 < 0.5) : finalScore fb e reals = (bestMatch e reals).2 := by
  simp only [finalScore]
  rw [if_neg h]

theorem finalScore_of_low_none (e : ParsedEvent) (reals : List RealEvent)
    (h : (bestMatch e reals).2 < 0.5) : finalScore none e reals = (bestMatch e reals).2 := by
  simp only [finalScore]
  rw [if_pos h]

theorem finalScore_of_low_some (e : ParsedEvent) (reals : List RealEvent) (r : RealEvent)
    (h : (bestMatch e reals).2 < 0.5) : finalScore (some r) e reals = calculateMatchScore e r := by
  simp only [finalScore]
  rw [if_pos h]

theorem finalMatch_of_not_low (fb : Option RealEvent) (e : ParsedEvent) (reals : List RealEvent)
    (h : ¬(bestMatch e reals).2 < 0.5) : finalMatch fb e reals = (bestMatch e reals).1 := by
  simp only [finalMatch]
  rw [if_neg h]

theorem finalMatch_of_low_none (e : ParsedEvent) (reals : List RealEvent)
    (h : (bestMatch e reals).2 < 0.5) : finalMatch none e reals = (bestMatch e reals).1 := by
  simp only [finalMatch]
  rw [if_pos h]

theorem finalMatch_of_low_some (e : ParsedEvent) (reals : List RealEvent) (r : RealEvent)
    (h : (bestMatch e reals).2 < 0.5) : finalMatch (some r) e reals = some r := by
  simp only [finalMatch]
  rw [if_pos h]

theorem finalScore_nonneg (fb : Option RealEvent) (e : ParsedEvent) (reals : List RealEvent) :
    0 ≤ finalScore fb e reals := by
  by_cases h : (bestMatch e reals).2 < 0.5
  · cases fb with
    | none => rw [finalScore_of_low_none e reals h]; exact bestMatch_snd_nonneg e reals
    | some r => rw [finalScore_of_low_some e reals r h]; exact calculateMatchScore_nonneg e r
  · rw [finalScore_of_not_low fb e reals h]
    exact bestMatch_snd_nonneg e reals

theorem finalScore_le_one (fb : Option RealEvent) (e : ParsedEvent) (reals : List RealEvent) :
    finalScore fb e reals ≤ 1 := by
  by_cases h : (bestMatch e reals).2 < 0.5
  · cases fb with
    | none => rw [finalScore_of_low_none e reals h]; exact bestMatch_snd_le_one e reals
    | some r => rw [finalScore_of_low_some e reals r h]; exact calculateMatchScore_le_one e r
  · rw [finalScore_of_not_low fb e reals h]
    exact bestMatch_snd_le_one e reals

/-! Per-candidate properties of `verifyEvent`. -/

theorem verifyEvent_props (fb : Option RealEvent) (e : ParsedEvent) (reals : List RealEvent)
    (loc : String) :
    (verifyEvent fb e reals loc).1.confidence = round (finalScore fb e reals * 100) ∧
    ((verifyEvent fb e reals loc).1.verificationStatus = statusVerified ↔
      0.8 ≤ (bestMatch e reals).2) ∧
    ((verifyEvent fb e reals loc).1.verificationStatus = statusUnverified ↔
      finalScore fb e reals < 0.5) ∧
    ((verifyEvent fb e reals loc).1.verificationStatus = statusPartial ↔
      (0.5 ≤ finalScore fb e reals ∧ ¬0.8 ≤ (bestMatch e reals).2)) ∧
    ((verifyEvent fb e reals loc).1.discrepancies ≠ none →
      (verifyEvent fb e reals loc).1.verificationStatus = statusPartial) ∧
    ((verifyEvent fb e reals loc).1.verificationStatus = statusVerified →
      (verifyEvent fb e reals loc).1.discrepancies = none) := by
  have hvp : statusVerified ≠ statusPartial := by simp [statusVerified, statusPartial]
  have hvu : statusVerified ≠ statusUnverified := by simp [statusVerified, statusUnverified]
  have hpu : statusPartial ≠ statusUnverified := by simp [statusPartial, statusUnverified]
  by_cases h8 : 0.8 ≤ (bestMatch e reals).2
  · have hfs : finalScore fb e reals = (bestMatch e reals).2 :=
      finalScore_of_not_low fb e reals (by linarith)
    rw [verifyEvent_of_high fb e reals loc h8]
    refine ⟨?_, ⟨fun _ => h8, fun _ => ?_⟩, ⟨fun hc => ?_, fun hc => ?_⟩,
      ⟨fun hc => ?_, fun hc => ?_⟩, fun hd => ?_, fun _ => ?_⟩
    · simp only [assemble_confidence, hfs]
    · simp only [assemble_status]
    · simp only [assemble_status] at hc
      exact absurd hc hvu
    · rw [hfs] at hc
      linarith
    · simp only [assemble_status] at hc
      exact absurd hc hvp
    · exact absurd h8 hc.2
    · simp [assemble_discrepancies] at hd
    · simp [assemble_discrepancies]
  · by_cases h5 : 0.5 ≤ (bestMatch e reals).2
    · have hfs : finalScore fb e reals = (bestMatch e reals).2 :=
        finalScore_of_not_low fb e reals (by linarith)
      rw [verifyEvent_of_mid fb e reals loc h8 h5]
      refine ⟨?_, ⟨fun hc => ?_, fun hc => ?_⟩, ⟨fun hc => ?_, fun hc => ?_⟩,
        ⟨fun _ => ?_, fun _ => ?_⟩, fun _ => ?_, fun hc => ?_⟩
      · simp only [assemble_confidence, hfs]
      · simp only [assemble_status] at hc
        exact absurd hc.symm hvp
      · exact absurd hc h8
      · simp only [assemble_status] at hc
        exact absurd hc hpu
      · rw [hfs] at hc
        linarith
      · exact ⟨by rw [hfs]; exact h5, h8⟩
      · simp only [assemble_status]
      · simp only [assemble_status]
      · simp only [assemble_status] at hc
        exact absurd hc.symm hvp
    · have hlow : (bestMatch e reals).2 < 0.5 := not_le.1 h5
      cases fb with
      | none =>
        have hfs : finalScore (none : Option RealEvent) e reals = (bestMatch e reals).2 :=
          finalScore_of_low_none e reals hlow
        rw [verifyEvent_of_low_none e reals loc hlow]
        refine ⟨?_, ⟨fun hc => ?_, fun hc => ?_⟩, ⟨fun _ => ?_, fun _ => ?_⟩,
          ⟨fun hc => ?_, fun hc => ?_⟩, fun hd => ?_, fun hc => ?_⟩
        · simp only [assemble_confidence, hfs]
        · simp only [assemble_status] at hc
          exact absurd hc.symm hvu
        · exact absurd hc h8
        · rw [hfs]
          exact hlow
        · simp only [assemble_status]
        · simp only [assemble_status] at hc
          exact absurd hc (Ne.symm hpu)
        · rw [hfs] at hc
          linarith [hc.1]
        · simp [assemble_discrepancies] at hd
        · simp [assemble_discrepancies]
      | some r =>
        have hfs : finalScore (some r) e reals = calculateMatchScore e r :=
          finalScore_of_low_some e reals r hlow
        by_cases hgood : 0.5 ≤ calculateMatchScore e r
        · rw [verifyEvent_of_low_some_good e reals loc r hlow hgood]
          refine ⟨?_, ⟨fun hc => ?_, fun hc => ?_⟩, ⟨fun hc => ?_, fun hc => ?_⟩,
            ⟨fun _ => ?_, fun _ => ?_⟩, fun _ => ?_, fun hc => ?_⟩
          · simp only [assemble_confidence, hfs]
          · simp only [assemble_status] at hc
            exact absurd hc.symm hvp
          · exact absurd hc h8
          · simp only [assemble_status] at hc
            exact absurd hc hpu
          · rw [hfs] at hc
            linarith
          · exact ⟨by rw [hfs]; exact hgood, h8⟩
          · simp only [assemble_status]
          · simp only [assemble_status]
          · simp only [assemble_status] at hc
            exact absurd hc.symm hvp
        · have hbad : calculateMatchScore e r < 0.5 := not_le.1 hgood
          rw [verifyEvent_of_low_some_bad e reals loc r hlow hbad]
          refine ⟨?_, ⟨fun hc => ?_, fun hc => ?_⟩, ⟨fun _ => ?_, fun _ => ?_⟩,
            ⟨fun hc => ?_, fun hc => ?_⟩, fun hd => ?_, fun hc => ?_⟩
          · simp only [assemble_confidence, hfs]
          · simp only [assemble_status] at hc
            exact absurd hc.symm hvu
          · exact absurd hc h8
          · rw [hfs]
            exact hbad
          · simp only [assemble_status]
          · simp only [assemble_status] at hc
            exact absurd hc (Ne.symm hpu)
          · rw [hfs] at hc
            linarith [hc.1]
          · simp [assemble_discrepancies] at hd
          · simp [assemble_discrepancies]


theorem verifyEvent_status_cases (fb : Option RealEvent) (e : ParsedEvent)
    (reals : List RealEvent) (loc : String) :
    (verifyEvent fb e reals loc).1.verificationStatus = statusVerified ∨
    (verifyEvent fb e reals loc).1.verificationStatus = statusPartial ∨
    (verifyEvent fb e reals loc).1.verificationStatus = statusUnverified := by
  obtain ⟨_, hv, hu, hp, _, _⟩ := verifyEvent_props fb e reals loc
  by_cases h8 : 0.8 ≤ (bestMatch e reals).2
  · exact Or.inl (hv.2 h8)
  · by_cases hlow : finalScore fb e reals < 0.5
    · exact Or.inr (Or.inr (hu.2 hlow))
    · exact Or.inr (Or.inl (hp.2 ⟨not_lt.1 hlow, h8⟩))

theorem verifyEvent_confidence_bounds (fb : Option RealEvent) (e : ParsedEvent)
    (reals : List RealEvent) (loc : String) :
    0 ≤ (verifyEvent fb e reals loc).1.confidence ∧
      (verifyEvent fb e reals loc).1.confidence ≤ 100 := by
  obtain ⟨hc, _⟩ := verifyEvent_props fb e reals loc
  rw [hc]
  exact confidence_round_bounds _ (finalScore_nonneg fb e reals) (finalScore_le_one fb e reals)

/-! Statistics helpers. -/

theorem statusCounts_partition (l : List VerifiedEvent)
    (h : ∀ v ∈ l, v.verificationStatus = statusVerified ∨
      v.verificationStatus = statusPartial ∨ v.verificationStatus = statusUnverified) :
    (l.filter (fun v => v.verificationStatus == statusVerified)).length +
      (l.filter (fun v => v.verificationStatus == statusPartial)).length +
      (l.filter (fun v => v.verificationStatus == statusUnverified)).length = l.length := by
  induction l with
  | nil => rfl
  | cons v rest ih =>
    have hrest := ih (fun w hw => h w (List.mem_cons_of_mem v hw))
    have bvp : (statusVerified == statusPartial) = false := by decide
    have bvu : (statusVerified == statusUnverified) = false := by decide
    have bpv : (statusPartial == statusVerified) = false := by decide
    have bpu : (statusPartial == statusUnverified) = false := by decide
    have buv : (statusUnverified == statusVerified) = false := by decide
    have bup : (statusUnverified == statusPartial) = false := by decide
    rcases h v (List.mem_cons_self v rest) with hv | hv | hv <;>
      simp [List.filter_cons, hv, bvp, bvu, bpv, bpu, buv, bup] <;> omega

theorem confidence_qsum_bounds (l : List VerifiedEvent)
    (h : ∀ v ∈ l, 0 ≤ v.confidence ∧ v.confidence ≤ 100) :
    0 ≤ (l.map (fun v => (v.confidence : ℚ))).sum ∧
      (l.map (fun v => (v.confidence : ℚ))).sum ≤ 100 * (l.length : ℚ) := by
  induction l with
  | nil => simp
  | cons x rest ih =>
    have hx := h x (List.mem_cons_self x rest)
    have hx0 : (0:ℚ) ≤ (x.confidence : ℚ) := by exact_mod_cast hx.1
    have hx1 : (x.confidence : ℚ) ≤ 100 := by exact_mod_cast hx.2
    have hrest := ih (fun y hy => h y (List.mem_cons_of_mem x hy))
    simp only [List.map_cons, List.sum_cons, List.length_cons]
    push_cast
    constructor
    · linarith [hrest.1]
    · linarith [hrest.2]

theorem round_bounds_0_100 (q : ℚ) (h0 : 0 ≤ q) (h1 : q ≤ 100) :
    0 ≤ round q ∧ round q ≤ 100 := by
  constructor
  · rw [round_eq]
    exact Int.le_floor.mpr (by push_cast; linarith)
  · rw [round_eq]
    have h2 : ⌊(201:ℚ)/2⌋ = 100 := by norm_num [Int.floor_eq_iff]
    calc ⌊q + 1/2⌋ ≤ ⌊(201:ℚ)/2⌋ := Int.floor_le_floor (by linarith)
    _ = 100 := h2

theorem calculateStats_avg_eq (l : List VerifiedEvent) :
    (calculateStats l).averageConfidence =
      round (if 0 < l.length then
        (l.map (fun v => (v.confidence : ℚ))).sum / (l.length : ℚ) else 0) :=
  rfl

theorem calculateStats_avg_bounds (l : List VerifiedEvent)
    (h : ∀ v ∈ l, 0 ≤ v.confidence ∧ v.confidence ≤ 100) :
    0 ≤ (calculateStats l).averageConfidence ∧ (calculateStats l).averageConfidence ≤ 100 := by
  have hsum := confidence_qsum_bounds l h
  rw [calculateStats_avg_eq]
  split_ifs with hlen
  · have hlpos : (0:ℚ) < (l.length : ℚ) := by exact_mod_cast hlen
    apply round_bounds_0_100
    · exact div_nonneg hsum.1 hlpos.le
    · rw [div_le_iff₀ hlpos]
      linarith [hsum.2]
  · norm_num

/-! Aggregator laws. -/

theorem getAllEvents_inactive (cfg : ProviderConfig) (fetches : EventSourceOptions → ProviderFetches)
    (opts : EventSourceOptions) (h1 : cfg.eventbriteToken = "") (h2 : cfg.ticketmasterApiKey = "")
    (h3 : cfg.meetupApiKey = "") (h4 : cfg.googlePlacesApiKey = "") :
    getAllEvents cfg fetches opts = [] := by
  have hfalse : jsTruthyStr "" = false := by decide
  simp [getAllEvents, h1, h2, h3, h4, hfalse]

theorem recoverToEmpty_normalize (x : Except String (List RealEvent)) :
    recoverToEmpty (Except.ok (recoverToEmpty x)) = recoverToEmpty x := by
  cases x <;> rfl

theorem getAllEvents_error_recovery (cfg : ProviderConfig)
    (fetches : EventSourceOptions → ProviderFetches) (opts : EventSourceOptions) :
    getAllEvents cfg fetches opts = getAllEvents cfg (fun o => normalizeFetches (fetches o)) opts := by
  simp only [getAllEvents, normalizeFetches, recoverToEmpty_normalize]

theorem getAllEvents_all_ok (cfg : ProviderConfig) (fetches : EventSourceOptions → ProviderFetches)
    (opts : EventSourceOptions) (l1 l2 l3 l4 : List RealEvent)
    (hf : fetches opts = ⟨Except.ok l1, Except.ok l2, Except.ok l3, Except.ok l4⟩)
    (c1 : jsTruthyStr cfg.eventbriteToken = true) (c2 : jsTruthyStr cfg.ticketmasterApiKey = true)
    (c3 : jsTruthyStr cfg.meetupApiKey = true) (c4 : jsTruthyStr cfg.googlePlacesApiKey = true) :
    getAllEvents cfg fetches opts = l1 ++ l2 ++ l3 ++ l4 := by
  simp [getAllEvents, hf, c1, c2, c3, c4, recoverToEmpty]

theorem findEvent_of_empty (cfg : ProviderConfig) (fetches : EventSourceOptions → ProviderFetches)
    (eventName loc : String) (date : Option Int)
    (h : ∀ opts, getAllEvents cfg fetches opts = []) :
    findEvent cfg fetches eventName loc date = none := by
  simp only [findEvent, h, List.find?_nil]

/-! Batch structure of `verifyEvents`. -/

theorem verifyEvents_verifiedEvents (cfg : ProviderConfig)
    (fetches : EventSourceOptions → ProviderFetches) (cands : List ParsedEvent) (loc : String)
    (g : Option String) (s t : Option Int) :
    (verifyEvents cfg fetches cands loc g s t).verifiedEvents =
      cands.map (fun e =>
        (verifyEvent (batchFallback cfg fetches loc e) e (batchRealEvents cfg fetches loc g s t)
          loc).1) :=
  rfl

theorem verifyEvents_stats (cfg : ProviderConfig)
    (fetches : EventSourceOptions → ProviderFetches) (cands : List ParsedEvent) (loc : String)
    (g : Option String) (s t : Option Int) :
    (verifyEvents cfg fetches cands loc g s t).stats =
      calculateStats (verifyEvents cfg fetches cands loc g s t).verifiedEvents :=
  rfl

/-! Frame law of `verifyEvent`: candidate fields are preserved, the final
match determines the matched-source summary and the URL backfill. -/

theorem verifyEvent_frame (fb : Option RealEvent) (e : ParsedEvent) (reals : List RealEvent)
    (loc : String) :
    (verifyEvent fb e reals loc).1.uid = e.uid ∧
    (verifyEvent fb e reals loc).1.summary = e.summary ∧
    (verifyEvent fb e reals loc).1.description = e.description ∧
    (verifyEvent fb e reals loc).1.start = e.start ∧
    (verifyEvent fb e reals loc).1.«end» = e.«end» ∧
    (verifyEvent fb e reals loc).1.location = e.location ∧
    (verifyEvent fb e reals loc).1.price = e.price ∧
    (verifyEvent fb e reals loc).1.organizer = e.organizer ∧
    (verifyEvent fb e reals loc).1.matchedSource =
      (finalMatch fb e reals).map (fun m => { name := m.name, url := m.url, source := m.source }) ∧
    (verifyEvent fb e reals loc).1.url =
      (match finalMatch fb e reals with
       | none => e.url
       | some m => if !jsTruthyOpt e.url && jsTruthyOpt m.url then m.url else e.url) := by
  by_cases h8 : 0.8 ≤ (bestMatch e reals).2
  · have hm : finalMatch fb e reals = (bestMatch e reals).1 :=
      finalMatch_of_not_low fb e reals (by linarith)
    rw [verifyEvent_of_high fb e reals loc h8, hm]
    exact ⟨assemble_uid .., assemble_summary .., assemble_description .., assemble_start ..,
      assemble_end .., assemble_location .., assemble_price .., assemble_organizer ..,
      assemble_matchedSource .., assemble_url ..⟩
  · by_cases h5 : 0.5 ≤ (bestMatch e reals).2
    · have hm : finalMatch fb e reals = (bestMatch e reals).1 :=
        finalMatch_of_not_low fb e reals (by linarith)
      rw [verifyEvent_of_mid fb e reals loc h8 h5, hm]
      exact ⟨assemble_uid .., assemble_summary .., assemble_description .., assemble_start ..,
        assemble_end .., assemble_location .., assemble_price .., assemble_organizer ..,
        assemble_matchedSource .., assemble_url ..⟩
    · have hlow : (bestMatch e reals).2 < 0.5 := not_le.1 h5
      cases fb with
      | none =>
        have hm : finalMatch (none : Option RealEvent) e reals = (bestMatch e reals).1 :=
          finalMatch_of_low_none e reals hlow
        rw [verifyEvent_of_low_none e reals loc hlow, hm]
        exact ⟨assemble_uid .., assemble_summary .., assemble_description .., assemble_start ..,
          assemble_end .., assemble_location .., assemble_price .., assemble_organizer ..,
          assemble_matchedSource .., assemble_url ..⟩
      | some r =>
        have hm : finalMatch (some r) e reals = some r := finalMatch_of_low_some e reals r hlow
        by_cases hgood : 0.5 ≤ calculateMatchScore e r
        · rw [verifyEvent_of_low_some_good e reals loc r hlow hgood, hm]
          exact ⟨assemble_uid .., assemble_summary .., assemble_description .., assemble_start ..,
            assemble_end .., assemble_location .., assemble_price .., assemble_organizer ..,
            assemble_matchedSource .., assemble_url ..⟩
        · rw [verifyEvent_of_low_some_bad e reals loc r hlow (not_le.1 hgood), hm]
          exact ⟨assemble_uid .., assemble_summary .., assemble_description .., assemble_start ..,
            assemble_end .., assemble_location .., assemble_price .., assemble_organizer ..,
            assemble_matchedSource .., assemble_url ..⟩

theorem forall2_map_self {α β : Type} (R : α → β → Prop) (f : α → β) :
    ∀ l : List α, (∀ a ∈ l, R a (f a)) → List.Forall₂ R l (l.map f) := by
  intro l
  induction l with
  | nil => intro _; exact List.Forall₂.nil
  | cons a rest ih =>
    intro h
    exact List.Forall₂.cons (h a (List.mem_cons_self a rest))
      (ih (fun x hx => h x (List.mem_cons_of_mem a hx)))

/-! Concrete evaluations on the fixtures. -/

theorem extractPrice_s20 : extractPrice sPrice20 = some 20 := by
  show some ((digitsToNat ['2','0'] : ℚ) + (digitsToNat ([] : List Char) : ℚ) /
    (10 ^ ([] : List Char).length : ℚ)) = some 20
  have h1 : digitsToNat ['2','0'] = 20 := by decide
  have h2 : digitsToNat ([] : List Char) = 0 := rfl
  rw [h1, h2]
  norm_num

theorem extractPrice_s1 : extractPrice sPrice1 = some 1 := by
  show some ((digitsToNat ['1'] : ℚ) + (digitsToNat ([] : List Char) : ℚ) /
    (10 ^ ([] : List Char).length : ℚ)) = some 1
  have h1 : digitsToNat ['1'] = 1 := by decide
  have h2 : digitsToNat ([] : List Char) = 0 := rfl
  rw [h1, h2]
  norm_num

theorem extractPrice_s50 : extractPrice sPrice50 = some 50 := by
  show some ((digitsToNat ['5','0'] : ℚ) + (digitsToNat ([] : List Char) : ℚ) /
    (10 ^ ([] : List Char).length : ℚ)) = some 50
  have h1 : digitsToNat ['5','0'] = 50 := by decide
  have h2 : digitsToNat ([] : List Char) = 0 := rfl
  rw [h1, h2]
  norm_num

theorem compareTwoStrings_ab_cd : compareTwoStrings (lowerData sAB) (lowerData sCD) = 0 := by
  simp only [compareTwoStrings]
  rw [if_neg (by decide : ¬stripWhitespace (lowerData sAB) = stripWhitespace (lowerData sCD))]
  rw [if_neg (by decide : ¬((stripWhitespace (lowerData sAB)).length < 2 ||
    (stripWhitespace (lowerData sCD)).length < 2) = true)]
  have h : bigramIntersectionCount (bigrams (stripWhitespace (lowerData sAB)))
      (bigrams (stripWhitespace (lowerData sCD))) = 0 := by decide
  rw [h]
  norm_num

theorem calculateMatchScore_jazz : calculateMatchScore jazzCandidate jazzReal = 1 := by
  have hn : nameScore jazzCandidate jazzReal = 1 := by
    show compareTwoStrings (lowerData jazzCandidate.summary) (lowerData jazzReal.name) = 1
    rw [show lowerData jazzCandidate.summary = lowerData jazzReal.name from by decide]
    exact compareTwoStrings_self _
  have ht : timeScore jazzCandidate jazzReal = 1 := by
    show (if hoursBetween jazzCandidate.start jazzReal.startDateTime ≤ 48 then
      1 - (hoursBetween jazzCandidate.start jazzReal.startDateTime : ℚ) / 48 else 0) = 1
    rw [show hoursBetween jazzCandidate.start jazzReal.startDateTime = 0 from by decide]
    norm_num
  have hl : locationScore jazzCandidate jazzReal = 1 := by
    simp only [locationScore]
    rw [if_pos (by decide : (jsTruthyOpt jazzCandidate.location && jsTruthyOpt jazzReal.venue) = true)]
    rw [show lowerData (orEmpty jazzCandidate.location) = lowerData (orEmpty jazzReal.venue) from by decide]
    exact compareTwoStrings_self _
  have hp : priceScore jazzCandidate jazzReal = 1 := by
    simp only [priceScore]
    rw [if_pos (by decide : (jsTruthyOpt jazzCandidate.price && jsTruthyOpt jazzReal.price) = true)]
    have h1 : extractPrice (orEmpty jazzCandidate.price) = some 20 := extractPrice_s20
    have h2 : extractPrice (orEmpty jazzReal.price) = some 20 := extractPrice_s20
    rw [h1, h2]
    show (if |(20:ℚ) - 20| ≤ 10 then 1 - |(20:ℚ) - 20| / 100 else 0) = 1
    norm_num
  rw [calculateMatchScore_eq, hn, ht, hl, hp]
  norm_num

theorem calculateMatchScore_zero : calculateMatchScore zeroCandidate zeroReal = 0 := by
  have hn : nameScore zeroCandidate zeroReal = 0 := compareTwoStrings_ab_cd
  have ht : timeScore zeroCandidate zeroReal = 0 := by
    show (if hoursBetween zeroCandidate.start zeroReal.startDateTime ≤ 48 then
      1 - (hoursBetween zeroCandidate.start zeroReal.startDateTime : ℚ) / 48 else 0) = 0
    rw [show hoursBetween zeroCandidate.start zeroReal.startDateTime = 49 from by decide]
    norm_num
  have hl : locationScore zeroCandidate zeroReal = 0 := by
    simp only [locationScore]
    rw [if_pos (by decide : (jsTruthyOpt zeroCandidate.location && jsTruthyOpt zeroReal.venue) = true)]
    exact compareTwoStrings_ab_cd
  have hp : priceScore zeroCandidate zeroReal = 0 := by
    simp only [priceScore]
    rw [if_pos (by decide : (jsTruthyOpt zeroCandidate.price && jsTruthyOpt zeroReal.price) = true)]
    have h1 : extractPrice (orEmpty zeroCandidate.price) = some 1 := extractPrice_s1
    have h2 : extractPrice (orEmpty zeroReal.price) = some 50 := extractPrice_s50
    rw [h1, h2]
    show (if |(1:ℚ) - 50| ≤ 10 then 1 - |(1:ℚ) - 50| / 100 else 0) = 0
    rw [show |(1:ℚ) - 50| = 49 from by norm_num [abs_sub_comm]]
    norm_num
  rw [calculateMatchScore_eq, hn, ht, hl, hp]
  norm_num

theorem bestMatch_nil (e : ParsedEvent) : bestMatch e [] = (none, 0) := rfl

theorem bestMatch_jazz : bestMatch jazzCandidate [jazzReal] = (some jazzReal, 1) := by
  show bestMatchAux jazzCandidate [] (if (0:ℚ) < calculateMatchScore jazzCandidate jazzReal then
    (some jazzReal, calculateMatchScore jazzCandidate jazzReal) else (none, 0)) = (some jazzReal, 1)
  rw [calculateMatchScore_jazz, if_pos (by norm_num : (0:ℚ) < 1)]
  rfl

theorem bestMatch_zero_pair : bestMatch zeroCandidate [zeroReal] = (none, 0) := by
  show bestMatchAux zeroCandidate [] (if (0:ℚ) < calculateMatchScore zeroCandidate zeroReal then
    (some zeroReal, calculateMatchScore zeroCandidate zeroReal) else (none, 0)) = (none, 0)
  rw [calculateMatchScore_zero, if_neg (by norm_num : ¬(0:ℚ) < 0)]
  rfl

/-- C1: `score(candidate, real)` is the weighted sum of the four sub-scores
with weights name 0.40, time 0.30, location 0.20 and price 0.10; the name
sub-score is the similarity ratio of the lower-cased title and name
(identical strings scoring 1); the time sub-score is `1 - dh/48` for an
hour difference `dh ≤ 48` and 0 beyond; the location sub-score is the
similarity ratio when both location texts are present and 0.5 otherwise;
the price sub-score is `1 - d/100` for a parsed difference `d ≤ 10`, 0 for
a larger parsed difference, and 0.5 when either price is absent or fails
to parse; the total lies in `[0, 1]`. -/
theorem claim1_score_weighted_sum (e : ParsedEvent) (r : RealEvent) :
    calculateMatchScore e r =
      nameScore e r * 0.4 + timeScore e r * 0.3 + locationScore e r * 0.2 + priceScore e r * 0.1 ∧
    nameScore e r = compareTwoStrings (lowerData e.summary) (lowerData r.name) ∧
    (lowerData e.summary = lowerData r.name → nameScore e r = 1) ∧
    timeScore e r = (if hoursBetween e.start r.startDateTime ≤ 48 then
      1 - (hoursBetween e.start r.startDateTime : ℚ) / 48 else 0) ∧
    ((jsTruthyOpt e.location && jsTruthyOpt r.venue) = true →
      locationScore e r =
        compareTwoStrings (lowerData (orEmpty e.location)) (lowerData (orEmpty r.venue))) ∧
    ((jsTruthyOpt e.location && jsTruthyOpt r.venue) = false → locationScore e r = 0.5) ∧
    (∀ pp rp : ℚ, (jsTruthyOpt e.price && jsTruthyOpt r.price) = true →
      extractPrice (orEmpty e.price) = some pp → extractPrice (orEmpty r.price) = some rp →
      priceScore e r = (if |pp - rp| ≤ 10 then 1 - |pp - rp| / 100 else 0)) ∧
    (((jsTruthyOpt e.price && jsTruthyOpt r.price) = false ∨
        extractPrice (orEmpty e.price) = none ∨ extractPrice (orEmpty r.price) = none) →
      priceScore e r = 0.5) ∧
    0 ≤ calculateMatchScore e r ∧ calculateMatchScore e r ≤ 1 := by
  refine ⟨calculateMatchScore_eq e r, rfl, ?_, rfl, ?_, ?_, ?_, ?_,
    calculateMatchScore_nonneg e r, calculateMatchScore_le_one e r⟩
  · intro h
    show compareTwoStrings (lowerData e.summary) (lowerData r.name) = 1
    rw [h]
    exact compareTwoStrings_self _
  · intro h
    simp only [locationScore]
    rw [if_pos h]
  · intro h
    simp [locationScore, h]
  · intro pp rp htr hpp hrp
    simp only [priceScore]
    rw [if_pos htr, hpp, hrp]
  · intro h
    simp only [priceScore]
    by_cases htr : (jsTruthyOpt e.price && jsTruthyOpt r.price) = true
    · rcases h with h | h | h
      · rw [h] at htr
        cases htr
      · rw [if_pos htr, h]
      · rw [if_pos htr, h]
        cases hX : extractPrice (orEmpty e.price) <;> rfl
    · rw [if_neg htr]

/-- Witness for C1 at the perfectly matching fixture pair: the lower-cased
names agree and the name sub-score is 1. -/
theorem claim1_witness :
    lowerData jazzCandidate.summary = lowerData jazzReal.name ∧
      nameScore jazzCandidate jazzReal = 1 :=
  ⟨by decide, (claim1_score_weighted_sum jazzCandidate jazzReal).2.2.1 (by decide)⟩

/-- C2: a candidate whose best-match score is below 0.5 is handled by the
fallback path: exactly one `findEvent(title, location, start)` call is
issued; with no fallback result the candidate stays unverified with the
original score's confidence; with a fallback result the score is recomputed
against it, confidence comes from the recomputed score, and the status is
partial (with discrepancies computed against the fallback event) when the
recomputed score is at least 0.5 and unverified otherwise. -/
theorem claim2_low_score_fallback (fb : Option RealEvent) (e : ParsedEvent)
    (reals : List RealEvent) (loc : String) (h : (bestMatch e reals).2 < 0.5) :
    (verifyEvent fb e reals loc).2 = [⟨e.summary, loc, e.start⟩] ∧
    (fb = none →
      (verifyEvent fb e reals loc).1.verificationStatus = statusUnverified ∧
      (verifyEvent fb e reals loc).1.confidence = round ((bestMatch e reals).2 * 100)) ∧
    (∀ r, fb = some r →
      (verifyEvent fb e reals loc).1.confidence = round (calculateMatchScore e r * 100) ∧
      (0.5 ≤ calculateMatchScore e r →
        (verifyEvent fb e reals loc).1.verificationStatus = statusPartial ∧
        (verifyEvent fb e reals loc).1.discrepancies =
          (if (findDiscrepancies e r).isEmpty then none else some (findDiscrepancies e r))) ∧
      (calculateMatchScore e r < 0.5 →
        (verifyEvent fb e reals loc).1.verificationStatus = statusUnverified)) := by
  refine ⟨?_, ?_, ?_⟩
  · cases fb with
    | none => rw [verifyEvent_of_low_none e reals loc h]
    | some r =>
      by_cases hs : 0.5 ≤ calculateMatchScore e r
      · rw [verifyEvent_of_low_some_good e reals loc r h hs]
      · rw [verifyEvent_of_low_some_bad e reals loc r h (not_le.1 hs)]
  · intro hfb
    subst hfb
    rw [verifyEvent_of_low_none e reals loc h]
    exact ⟨assemble_status .., assemble_confidence ..⟩
  · intro r hfb
    subst hfb
    by_cases hs : 0.5 ≤ calculateMatchScore e r
    · rw [verifyEvent_of_low_some_good e reals loc r h hs]
      exact ⟨assemble_confidence .., fun _ => ⟨assemble_status .., assemble_discrepancies ..⟩,
        fun hlt => absurd hs (not_le.2 hlt)⟩
    · rw [verifyEvent_of_low_some_bad e reals loc r h (not_le.1 hs)]
      exact ⟨assemble_confidence .., fun hge => absurd hge hs, fun _ => assemble_status ..⟩

/-- Witness for C2: with an empty aggregated list the best score is below
0.5 and one fallback call with the candidate title, location and start is
recorded. -/
theorem claim2_witness :
    (bestMatch zeroCandidate ([] : List RealEvent)).2 < 0.5 ∧
    (verifyEvent none zeroCandidate [] sNYC).2 =
      [⟨zeroCandidate.summary, sNYC, zeroCandidate.start⟩] := by
  have h : (bestMatch zeroCandidate ([] : List RealEvent)).2 < 0.5 := by
    rw [bestMatch_nil]
    norm_num
  exact ⟨h, (claim2_low_score_fallback none zeroCandidate [] sNYC h).1⟩

/-- Counterexample to C3 as stated: a candidate rescued by the fallback
with a recomputed score of 1 (≥ 0.8) ends with status `partial`, not
`verified`, so the final status is not `verified` exactly when the final
score is at least 0.8, and discrepancy computation also ran at a score
outside `[0.5, 0.8)`. -/
theorem claim3_counterexample :
    (verifyEvent (some jazzReal) jazzCandidate [] sNYC).1.verificationStatus = statusPartial ∧
    (verifyEvent (some jazzReal) jazzCandidate [] sNYC).1.verificationStatus ≠ statusVerified ∧
    0.8 ≤ finalScore (some jazzReal) jazzCandidate [] := by
  have hlow : (bestMatch jazzCandidate ([] : List RealEvent)).2 < 0.5 := by
    rw [bestMatch_nil]
    norm_num
  have hs : (0.5:ℚ) ≤ calculateMatchScore jazzCandidate jazzReal := by
    rw [calculateMatchScore_jazz]
    norm_num
  have hst : (verifyEvent (some jazzReal) jazzCandidate [] sNYC).1.verificationStatus =
      statusPartial := by
    rw [verifyEvent_of_low_some_good jazzCandidate [] sNYC jazzReal hlow hs]
    exact assemble_status ..
  refine ⟨hst, ?_, ?_⟩
  · rw [hst]
    decide
  · rw [finalScore_of_low_some jazzCandidate [] jazzReal hlow, calculateMatchScore_jazz]
    norm_num

/-- C3 (amended): the final status is `verified` exactly when the
pre-fallback best score is at least 0.8 (a fallback rescue is at most
`partial`, even when its recomputed score reaches 0.8); `partial` exactly
when the final score is at least 0.5 and the pre-fallback score below 0.8;
`unverified` exactly when the final score is below 0.5; discrepancies are
present on the output only when the status is `partial`, and a `verified`
candidate never reports discrepancies. -/
theorem claim3_status_amended (fb : Option RealEvent) (e : ParsedEvent) (reals : List RealEvent)
    (loc : String) :
    ((verifyEvent fb e reals loc).1.verificationStatus = statusVerified ↔
      0.8 ≤ (bestMatch e reals).2) ∧
    ((verifyEvent fb e reals loc).1.verificationStatus = statusPartial ↔
      (0.5 ≤ finalScore fb e reals ∧ ¬0.8 ≤ (bestMatch e reals).2)) ∧
    ((verifyEvent fb e reals loc).1.verificationStatus = statusUnverified ↔
      finalScore fb e reals < 0.5) ∧
    ((verifyEvent fb e reals loc).1.discrepancies ≠ none →
      (verifyEvent fb e reals loc).1.verificationStatus = statusPartial) ∧
    ((verifyEvent fb e reals loc).1.verificationStatus = statusVerified →
      (verifyEvent fb e reals loc).1.discrepancies = none) := by
  obtain ⟨_, h1, h2, h3, h4, h5⟩ := verifyEvent_props fb e reals loc
  exact ⟨h1, h3, h2, h4, h5⟩

/-- Witness for C3 (amended): a best score of 1 yields status `verified`. -/
theorem claim3_witness :
    0.8 ≤ (bestMatch jazzCandidate [jazzReal]).2 ∧
    (verifyEvent none jazzCandidate [jazzReal] sNYC).1.verificationStatus = statusVerified := by
  have h8 : (0.8:ℚ) ≤ (bestMatch jazzCandidate [jazzReal]).2 := by
    rw [bestMatch_jazz]
    norm_num
  exact ⟨h8, (claim3_status_amended none jazzCandidate [jazzReal] sNYC).1.mpr h8⟩

/-- Counterexample to C6 as stated: a nonempty real-event list whose only
event scores 0 yields `(null, 0)` instead of that event. -/
theorem claim6_counterexample :
    bestMatch zeroCandidate [zeroReal] = (none, 0) ∧
    calculateMatchScore zeroCandidate zeroReal = 0 ∧
    ([zeroReal] : List RealEvent) ≠ [] :=
  ⟨bestMatch_zero_pair, calculateMatchScore_zero, by simp⟩

/-- C6 (amended): `bestMatch` returns the maximum score over the list
(0 for an empty list), and the returned event, when present, is the first
event in input order attaining that maximum, which is then strictly
positive; when every event scores 0 — in particular on an empty list — the
result is `(null, 0)`. -/
theorem claim6_bestMatch_amended (e : ParsedEvent) (l : List RealEvent) :
    bestMatch e ([] : List RealEvent) = (none, 0) ∧
    (bestMatch e l).2 = l.foldl (fun m r => max m (calculateMatchScore e r)) 0 ∧
    ((bestMatch e l).1 = none ↔ ∀ r ∈ l, calculateMatchScore e r ≤ 0) ∧
    ∀ x, (bestMatch e l).1 = some x →
      0 < calculateMatchScore e x ∧ calculateMatchScore e x = (bestMatch e l).2 ∧
      (∀ y ∈ l, calculateMatchScore e y ≤ calculateMatchScore e x) ∧
      ∃ pre post, l = pre ++ x :: post ∧
        ∀ y ∈ pre, calculateMatchScore e y < calculateMatchScore e x :=
  ⟨bestMatch_nil e, bestMatch_snd_eq e l, bestMatch_none_iff e l,
    fun x h => bestMatch_some_spec e l x h⟩

/-- Witness for C6 (amended): the jazz fixture is returned as the best
match and its score is strictly positive. -/
theorem claim6_witness :
    (bestMatch jazzCandidate [jazzReal]).1 = some jazzReal ∧
      0 < calculateMatchScore jazzCandidate jazzReal := by
  have h : (bestMatch jazzCandidate [jazzReal]).1 = some jazzReal := by
    rw [bestMatch_jazz]
  exact ⟨h, ((claim6_bestMatch_amended jazzCandidate [jazzReal]).2.2.2 jazzReal h).1⟩

/-- C4: in every verification batch, each candidate's output confidence is
`round(final score * 100)` and lies in `[0, 100]`. -/
theorem claim4_confidence (cfg : ProviderConfig) (fetches : EventSourceOptions → ProviderFetches)
    (cands : List ParsedEvent) (loc : String) (g : Option String) (s t : Option Int) :
    List.Forall₂ (fun (c : ParsedEvent) (v : VerifiedEvent) =>
      v.confidence = round (finalScore (batchFallback cfg fetches loc c) c
        (batchRealEvents cfg fetches loc g s t) * 100) ∧
      0 ≤ v.confidence ∧ v.confidence ≤ 100)
      cands (verifyEvents cfg fetches cands loc g s t).verifiedEvents := by
  rw [verifyEvents_verifiedEvents]
  apply forall2_map_self
  intro c _
  obtain ⟨hconf, _⟩ :=
    verifyEvent_props (batchFallback cfg fetches loc c) c (batchRealEvents cfg fetches loc g s t) loc
  exact ⟨hconf, verifyEvent_confidence_bounds _ _ _ _⟩

/-- C5: in every verification result the three status counts add up to the
total, the average confidence lies in `[0, 100]`, and it is the rounded
arithmetic mean of the confidences, with value 0 for an empty batch. -/
theorem claim5_stats (cfg : ProviderConfig) (fetches : EventSourceOptions → ProviderFetches)
    (cands : List ParsedEvent) (loc : String) (g : Option String) (s t : Option Int) :
    (verifyEvents cfg fetches cands loc g s t).stats.verifiedCount +
      (verifyEvents cfg fetches cands loc g s t).stats.partialCount +
      (verifyEvents cfg fetches cands loc g s t).stats.unverifiedCount =
      (verifyEvents cfg fetches cands loc g s t).stats.totalEvents ∧
    0 ≤ (verifyEvents cfg fetches cands loc g s t).stats.averageConfidence ∧
    (verifyEvents cfg fetches cands loc g s t).stats.averageConfidence ≤ 100 ∧
    ((verifyEvents cfg fetches cands loc g s t).verifiedEvents = [] →
      (verifyEvents cfg fetches cands loc g s t).stats.averageConfidence = 0) ∧
    ((verifyEvents cfg fetches cands loc g s t).verifiedEvents ≠ [] →
      (verifyEvents cfg fetches cands loc g s t).stats.averageConfidence =
        round ((((verifyEvents cfg fetches cands loc g s t).verifiedEvents.map
            (fun v => (v.confidence : ℚ))).sum) /
          ((verifyEvents cfg fetches cands loc g s t).verifiedEvents.length : ℚ))) := by
  have hmem : ∀ v ∈ (verifyEvents cfg fetches cands loc g s t).verifiedEvents,
      v.verificationStatus = statusVerified ∨ v.verificationStatus = statusPartial ∨
        v.verificationStatus = statusUnverified := by
    rw [verifyEvents_verifiedEvents]
    intro v hv
    obtain ⟨c, _, rfl⟩ := List.mem_map.1 hv
    exact verifyEvent_status_cases _ _ _ _
  have hconf : ∀ v ∈ (verifyEvents cfg fetches cands loc g s t).verifiedEvents,
      0 ≤ v.confidence ∧ v.confidence ≤ 100 := by
    rw [verifyEvents_verifiedEvents]
    intro v hv
    obtain ⟨c, _, rfl⟩ := List.mem_map.1 hv
    exact verifyEvent_confidence_bounds _ _ _ _
  have havg := calculateStats_avg_bounds _ hconf
  refine ⟨statusCounts_partition _ hmem, havg.1, havg.2, ?_, ?_⟩
  · intro h
    show (calculateStats (verifyEvents cfg fetches cands loc g s t).verifiedEvents).averageConfidence = 0
    rw [h, calculateStats_avg_eq]
    simp
  · intro h
    have hlen : 0 < (verifyEvents cfg fetches cands loc g s t).verifiedEvents.length :=
      List.length_pos.2 h
    show (calculateStats (verifyEvents cfg fetches cands loc g s t).verifiedEvents).averageConfidence = _
    rw [calculateStats_avg_eq, if_pos hlen]

/-- Witness for C5 at a nonempty batch: the average confidence equals the
rounded mean of the confidences. -/
theorem claim5_witness :
    (verifyEvents emptyConfig failingFetches [zeroCandidate] sNYC none none none).verifiedEvents ≠ [] ∧
    (verifyEvents emptyConfig failingFetches [zeroCandidate] sNYC none none none).stats.averageConfidence =
      round ((((verifyEvents emptyConfig failingFetches [zeroCandidate] sNYC none none
            none).verifiedEvents.map (fun v => (v.confidence : ℚ))).sum) /
        ((verifyEvents emptyConfig failingFetches [zeroCandidate] sNYC none none
            none).verifiedEvents.length : ℚ)) := by
  have hne : (verifyEvents emptyConfig failingFetches [zeroCandidate] sNYC none none
      none).verifiedEvents ≠ [] := by
    rw [verifyEvents_verifiedEvents]
    simp
  exact ⟨hne,
    (claim5_stats emptyConfig failingFetches [zeroCandidate] sNYC none none none).2.2.2.2 hne⟩

/-- C7: `getAllEvents` never fails: with no configured credentials it is the
empty list, a rejected provider fetch contributes the same as a successful
empty fetch, and with every provider active and successful the result is the
concatenation in provider-registration order; consequently with no
configured credentials every candidate of a batch ends `unverified` with
confidence 0. -/
theorem claim7_provider_degradation (cfg : ProviderConfig)
    (fetches : EventSourceOptions → ProviderFetches) (opts : EventSourceOptions)
    (cands : List ParsedEvent) (loc : String) (g : Option String) (s t : Option Int) :
    ((cfg.eventbriteToken = "" ∧ cfg.ticketmasterApiKey = "" ∧ cfg.meetupApiKey = "" ∧
        cfg.googlePlacesApiKey = "") →
      getAllEvents cfg fetches opts = [] ∧
      ∀ v ∈ (verifyEvents cfg fetches cands loc g s t).verifiedEvents,
        v.verificationStatus = statusUnverified ∧ v.confidence = 0) ∧
    getAllEvents cfg fetches opts = getAllEvents cfg (fun o => normalizeFetches (fetches o)) opts ∧
    (∀ l1 l2 l3 l4 : List RealEvent,
      fetches opts = ⟨Except.ok l1, Except.ok l2, Except.ok l3, Except.ok l4⟩ →
      jsTruthyStr cfg.eventbriteToken = true → jsTruthyStr cfg.ticketmasterApiKey = true →
      jsTruthyStr cfg.meetupApiKey = true → jsTruthyStr cfg.googlePlacesApiKey = true →
      getAllEvents cfg fetches opts = l1 ++ l2 ++ l3 ++ l4) := by
  refine ⟨?_, getAllEvents_error_recovery cfg fetches opts, ?_⟩
  · rintro ⟨h1, h2, h3, h4⟩
    have hempty : ∀ o, getAllEvents cfg fetches o = [] := fun o =>
      getAllEvents_inactive cfg fetches o h1 h2 h3 h4
    refine ⟨hempty opts, ?_⟩
    rw [verifyEvents_verifiedEvents]
    intro v hv
    obtain ⟨c, _, rfl⟩ := List.mem_map.1 hv
    have hreal : batchRealEvents cfg fetches loc g s t = [] := hempty _
    have hfb : batchFallback cfg fetches loc c = none :=
      findEvent_of_empty cfg fetches c.summary loc (some c.start) hempty
    rw [hreal, hfb]
    have hbm : bestMatch c [] = (none, 0) := bestMatch_nil c
    have hlow : (bestMatch c ([] : List RealEvent)).2 < 0.5 := by
      rw [hbm]
      norm_num
    rw [verifyEvent_of_low_none c [] loc hlow]
    refine ⟨assemble_status .., ?_⟩
    rw [assemble_confidence, hbm]
    norm_num
  · intro l1 l2 l3 l4 hf c1 c2 c3 c4
    exact getAllEvents_all_ok cfg fetches opts l1 l2 l3 l4 hf c1 c2 c3 c4

/-- Witness for C7: the empty configuration yields an empty aggregation
even when every provider call fails. -/
theorem claim7_witness :
    (emptyConfig.eventbriteToken = "" ∧ emptyConfig.ticketmasterApiKey = "" ∧
      emptyConfig.meetupApiKey = "" ∧ emptyConfig.googlePlacesApiKey = "") ∧
    getAllEvents emptyConfig failingFetches nycOptions = [] := by
  have hcfg : emptyConfig.eventbriteToken = "" ∧ emptyConfig.ticketmasterApiKey = "" ∧
      emptyConfig.meetupApiKey = "" ∧ emptyConfig.googlePlacesApiKey = "" := ⟨rfl, rfl, rfl, rfl⟩
  exact ⟨hcfg, ((claim7_provider_degradation emptyConfig failingFetches nycOptions [] sNYC
    none none none).1 hcfg).1⟩

/-- Counterexample to C8 as stated: the code lower-cases *and trims* the
search name before the two-way substring test; for the padded search name
`" ab "` the event named `"xaby"` is returned by `findEvent` although it is
not a two-way substring match of the search name itself. -/
theorem claim8_counterexample :
    findEvent ebOnlyConfig xabyFetches sPadAB sNYC none = some xabyReal ∧
    specNameMatch sPadAB xabyReal = false := by
  constructor
  · decide
  · decide

/-- C8 (amended): `findEvent` queries with the name as the genre keyword
and a ±24-hour window around the date when one is given, and returns the
first aggregated event matching the name test — a case-insensitive
substring match, in either direction, between the event name and the
lower-cased, whitespace-trimmed search name — or null when no event
matches. -/
theorem claim8_findEvent_amended (cfg : ProviderConfig)
    (fetches : EventSourceOptions → ProviderFetches) (eventName loc : String)
    (date : Option Int) :
    (findEvent cfg fetches eventName loc date = none ↔
      ∀ ev ∈ getAllEvents cfg fetches
        { location := loc, genre := some eventName,
          startDateTime := date.map (fun d => d - 24 * 60 * 60 * 1000),
          endDateTime := date.map (fun d => d + 24 * 60 * 60 * 1000) },
        findEventNameMatch eventName ev = false) ∧
    (∀ r, findEvent cfg fetches eventName loc date = some r →
      findEventNameMatch eventName r = true ∧
      ∃ pre post, getAllEvents cfg fetches
        { location := loc, genre := some eventName,
          startDateTime := date.map (fun d => d - 24 * 60 * 60 * 1000),
          endDateTime := date.map (fun d => d + 24 * 60 * 60 * 1000) } = pre ++ r :: post ∧
        ∀ ev ∈ pre, findEventNameMatch eventName ev = false) ∧
    (∀ ev : RealEvent, findEventNameMatch eventName ev =
      (substringOf (trimChars (lowerData eventName)) (lowerData ev.name) ||
        substringOf (lowerData ev.name) (trimChars (lowerData eventName)))) := by
  refine ⟨?_, ?_, fun ev => rfl⟩
  · show (getAllEvents cfg fetches
      { location := loc, genre := some eventName,
        startDateTime := date.map (fun d => d - 24 * 60 * 60 * 1000),
        endDateTime := date.map (fun d => d + 24 * 60 * 60 * 1000) }).find?
        (fun ev => findEventNameMatch eventName ev) = none ↔ _
    simp only [List.find?_eq_none, Bool.not_eq_true]
  · intro r h
    have h' : (getAllEvents cfg fetches
        { location := loc, genre := some eventName,
          startDateTime := date.map (fun d => d - 24 * 60 * 60 * 1000),
          endDateTime := date.map (fun d => d + 24 * 60 * 60 * 1000) }).find?
          (fun ev => findEventNameMatch eventName ev) = some r := h
    obtain ⟨hp, as, bs, hl, hall⟩ := List.find?_eq_some.1 h'
    refine ⟨hp, as, bs, hl, fun ev hev => ?_⟩
    have := hall ev hev
    simpa using this

/-- Witness for C8 (amended): the returned event satisfies the trimmed
substring test. -/
theorem claim8_witness :
    findEvent ebOnlyConfig xabyFetches sPadAB sNYC none = some xabyReal ∧
    findEventNameMatch sPadAB xabyReal = true := by
  have h : findEvent ebOnlyConfig xabyFetches sPadAB sNYC none = some xabyReal := by decide
  exact ⟨h,
    ((claim8_findEvent_amended ebOnlyConfig xabyFetches sPadAB sNYC none).2.1 xabyReal h).1⟩

/-- C9: `verifyEvents` returns one `VerifiedEvent` per candidate in input
order, each preserving every candidate field; the matched-source summary is
the final match's name, URL and origin when a final match exists; and the
output URL is the candidate's own URL except that a JS-falsy candidate URL
is backfilled from a truthy final-match URL. -/
theorem claim9_frame (cfg : ProviderConfig) (fetches : EventSourceOptions → ProviderFetches)
    (cands : List ParsedEvent) (loc : String) (g : Option String) (s t : Option Int) :
    (verifyEvents cfg fetches cands loc g s t).verifiedEvents.length = cands.length ∧
    List.Forall₂ (fun (c : ParsedEvent) (v : VerifiedEvent) =>
      v.uid = c.uid ∧ v.summary = c.summary ∧ v.description = c.description ∧
      v.start = c.start ∧ v.«end» = c.«end» ∧ v.location = c.location ∧
      v.price = c.price ∧ v.organizer = c.organizer ∧
      v.matchedSource =
        (finalMatch (batchFallback cfg fetches loc c) c
          (batchRealEvents cfg fetches loc g s t)).map
          (fun m => { name := m.name, url := m.url, source := m.source }) ∧
      v.url = (match finalMatch (batchFallback cfg fetches loc c) c
          (batchRealEvents cfg fetches loc g s t) with
        | none => c.url
        | some m => if !jsTruthyOpt c.url && jsTruthyOpt m.url then m.url else c.url))
      cands (verifyEvents cfg fetches cands loc g s t).verifiedEvents := by
  constructor
  · rw [verifyEvents_verifiedEvents, List.length_map]
  · rw [verifyEvents_verifiedEvents]
    apply forall2_map_self
    intro c _
    exact verifyEvent_frame (batchFallback cfg fetches loc c) c
      (batchRealEvents cfg fetches loc g s t) loc

/-- C10: every event produced by the Google Places client carries the fetch
instant as its start, its own name as the venue, and no end, URL or price;
the time sub-score against such an event therefore measures the candidate's
distance from the fetch instant. -/
theorem claim10_google_placeholder (now : Int) (options : EventSourceOptions)
    (places : List GooglePlace) :
    ∀ ev ∈ getGoogleEvents now options places,
      ev.startDateTime = now ∧ ev.venue = some ev.name ∧ ev.endDateTime = none ∧
      ev.url = none ∧ ev.price = none ∧
      ∀ e : ParsedEvent, timeScore e ev =
        (if hoursBetween e.start now ≤ 48 then 1 - (hoursBetween e.start now : ℚ) / 48 else 0) := by
  intro ev hev
  obtain ⟨place, _, rfl⟩ := List.mem_map.1 hev
  exact ⟨rfl, rfl, rfl, rfl, rfl, fun e => rfl⟩

/-- Witness for C10 at the fixture place: the constructed Google event has
the fetch instant as its start and its name as the venue. -/
theorem claim10_witness :
    googleHallEvent ∈ getGoogleEvents 0 nycOptions [theHallPlace] ∧
    googleHallEvent.startDateTime = 0 ∧ googleHallEvent.venue = some googleHallEvent.name := by
  have hmem : googleHallEvent ∈ getGoogleEvents 0 nycOptions [theHallPlace] := by decide
  have h := claim10_google_placeholder 0 nycOptions [theHallPlace] googleHallEvent hmem
  exact ⟨hmem, h.1, h.2.1⟩

end CalendarAgent
